import Mathlib

/-!
Verification of the drone-survey mission planning and simulation core.

The definitions below are a shallow embedding of the TypeScript sources:

* `backend/src/utils/geospatial.ts` — geometry kernel and path planner
  (`interpolatePosition`, `generateGridPattern`, `generateCrosshatchPattern`,
  with turf.js's `bbox` and `lineIntersect` modelled by `bboxOf` and
  `lineIntersect` over exact rationals);
* `backend/src/services/fleet.service.ts` — `FleetService` drone updates;
* `backend/src/services/mission.service.ts` — `MissionService` state machine
  operations;
* the Bull worker `missionQueue.process` in `simulation.service.ts` — the
  per-mission simulation engine (`tickBody`, `runSteps`, `runSegments`,
  `processMission`).

JavaScript numbers are modelled as exact rationals (`ℚ`); `Date` values are
modelled as natural-number timestamps.  The Prisma database rows touched by
the engine (one mission, its drone, its waypoint batch) are modelled by the
record `Db`; a thrown JS `Error` is an `Except String` error value.  The
haversine distance of turf.js (`calculateDistance`) is transcendental, so the
simulation worker is parametrised over the geometry-kernel distance function
`SimCfg.dist`; concurrent external status writes (pause / resume / abort
requests racing with the worker) are modelled by `SimCfg.ext`, observed at the
worker's database status reads exactly where the source re-reads the mission.
-/

/-! ### Enumerations (`@prisma/client` generated enums) -/

inductive DroneStatus where
  | AVAILABLE | IN_MISSION | CHARGING | MAINTENANCE | OFFLINE
deriving DecidableEq, Repr

inductive MissionStatus where
  | PLANNED | ACTIVE | PAUSED | COMPLETED | ABORTED | FAILED
deriving DecidableEq, Repr

/-! ### Geometry kernel (`backend/src/utils/geospatial.ts`) -/

/-- `interpolatePosition` (geospatial.ts): linear interpolation of
`[longitude, latitude, altitude]` triples at a fractional progress. -/
def interpolatePosition (f t : ℚ × ℚ × ℚ) (progress : ℚ) : ℚ × ℚ × ℚ :=
  (f.1 + (t.1 - f.1) * progress,
   f.2.1 + (t.2.1 - f.2.1) * progress,
   f.2.2 + (t.2.2 - f.2.2) * progress)

/-- Ring closing performed at the top of `generateGridPattern` /
`calculateArea`: append the first vertex when the ring is open. -/
def closeRing (polygon : List (ℚ × ℚ)) : List (ℚ × ℚ) :=
  match polygon with
  | [] => []
  | p :: rest =>
    let coords := p :: rest
    let lastV := coords.getLast (List.cons_ne_nil p rest)
    if p.1 = lastV.1 ∧ p.2 = lastV.2 then coords else coords ++ [p]

/-- One step of turf.bbox's fold over the coordinates:
running `(minLng, minLat, maxLng, maxLat)`. -/
def bboxStep (b : ℚ × ℚ × ℚ × ℚ) (q : ℚ × ℚ) : ℚ × ℚ × ℚ × ℚ :=
  (min b.1 q.1, min b.2.1 q.2, max b.2.2.1 q.1, max b.2.2.2 q.2)

/-- `turf.bbox` over a coordinate list: `none` on an empty geometry. -/
def bboxOf : List (ℚ × ℚ) → Option (ℚ × ℚ × ℚ × ℚ)
  | [] => none
  | q :: rest => some (rest.foldl bboxStep (q.1, q.2, q.1, q.2))

/-- turf.js segment-segment intersection helper (`intersects` inside
`lineIntersect`): Cramer's-rule solution of the two-segment system, `none`
for parallel segments (zero determinant), endpoint hits included. -/
def intersectsSegs (x1 y1 x2 y2 x3 y3 x4 y4 : ℚ) : Option (ℚ × ℚ) :=
  let denom := (y4 - y3) * (x2 - x1) - (x4 - x3) * (y2 - y1)
  if denom = 0 then none
  else
    let uA := ((x4 - x3) * (y1 - y3) - (y4 - y3) * (x1 - x3)) / denom
    let uB := ((x2 - x1) * (y1 - y3) - (y2 - y1) * (x1 - x3)) / denom
    if 0 ≤ uA ∧ uA ≤ 1 ∧ 0 ≤ uB ∧ uB ≤ 1 then
      some (x1 + uA * (x2 - x1), y1 + uA * (y2 - y1))
    else none

/-- `turf.lineIntersect(line, polygon)` for a two-point line against the
closed polygon ring: intersect the line with every boundary segment and
collect the hits.  (turf enumerates candidate segment pairs through a
spatial index, which can permute the result; the grid generator only uses
the first and last hit and the facts proved below are count-based, so the
enumeration order is taken to be boundary order.) -/
def lineIntersect (ls le : ℚ × ℚ) (ring : List (ℚ × ℚ)) : List (ℚ × ℚ) :=
  (ring.zip ring.tail).filterMap fun e =>
    intersectsSegs ls.1 ls.2 le.1 le.2 e.1.1 e.1.2 e.2.1 e.2.2

/-- Body of one iteration of `generateGridPattern`'s sweep loop: build the
full-width horizontal line at `lat` (left→right when `dirRight`, else
right→left), intersect it with the ring, and when at least two hits exist
emit the first and last hit at the flight altitude. -/
def gridLine (ring : List (ℚ × ℚ)) (mnx mxx altitude lat : ℚ)
    (dirRight : Bool) : List (ℚ × ℚ × ℚ) :=
  let lineStart := if dirRight then (mnx, lat) else (mxx, lat)
  let lineEnd := if dirRight then (mxx, lat) else (mnx, lat)
  let points := lineIntersect lineStart lineEnd ring
  if 2 ≤ points.length then
    if dirRight then
      [(points.headI.1, points.headI.2, altitude),
       (points.getLastI.1, points.getLastI.2, altitude)]
    else
      [(points.getLastI.1, points.getLastI.2, altitude),
       (points.headI.1, points.headI.2, altitude)]
  else []

/-- Number of iterations of the source's
`while (currentLat <= maxLat) { ...; currentLat += spacingDegrees }` sweep
starting at `mny`: the visited latitudes are `mny + k * s` for
`k < numSweeps mny mxy s`.  (For `s ≤ 0` the source loop would never
terminate; that argument never occurs — spacing is positive — and is
modelled as zero sweeps.) -/
def numSweeps (mny mxy s : ℚ) : ℕ :=
  if 0 < s ∧ mny ≤ mxy then (Int.floor ((mxy - mny) / s)).toNat + 1 else 0

/-- `generateGridPattern` (geospatial.ts): boustrophedon sweep of the
polygon's bounding box.  The `_angle` parameter is declared by the source
(`_angle: number = 0`) and never used by its body, exactly as in the
source. -/
def generateGridPattern (polygon : List (ℚ × ℚ)) (altitude spacing : ℚ)
    ( _angle : ℚ) : List (ℚ × ℚ × ℚ) :=
  let coords := closeRing polygon
  match bboxOf coords with
  | none => []
  | some (mnx, mny, mxx, mxy) =>
    let spacingDegrees := spacing / 111320
    (List.range (numSweeps mny mxy spacingDegrees)).flatMap fun k =>
      gridLine coords mnx mxx altitude (mny + (k : ℚ) * spacingDegrees)
        (k % 2 == 0)

/-- `generateCrosshatchPattern` (geospatial.ts): two grid passes, the second
invoked with angle `90`, concatenated. -/
def generateCrosshatchPattern (polygon : List (ℚ × ℚ))
    (altitude spacing : ℚ) : List (ℚ × ℚ × ℚ) :=
  let grid1 := generateGridPattern polygon altitude spacing 0
  let grid2 := generateGridPattern polygon altitude spacing 90
  grid1 ++ grid2

/-! ### Database rows (Prisma schema, restricted to the fields the core
touches: one mission, its drone, its waypoint batch) -/

/-- A `Drone` row (fields read or written by the engine / services). -/
structure DroneRec where
  status : DroneStatus
  battery : ℚ
  longitude : ℚ
  latitude : ℚ
  altitude : ℚ
deriving DecidableEq, Repr

/-- A `Mission` row (fields read or written by the engine / services). -/
structure MissionRec where
  status : MissionStatus
  currentWaypoint : ℕ
  distanceCovered : ℚ
  progress : ℚ
  speed : ℚ
  estimatedTime : ℚ
  actualTime : ℚ
  startTime : Option ℕ
  endTime : Option ℕ
deriving DecidableEq, Repr

/-- A `Waypoint` row.  `timesMarked` is a ghost counter (not a schema
field): it counts the engine's `prisma.waypoint.update` calls against the
row, used to state the "mutated exactly once" property. -/
structure Waypoint where
  longitude : ℚ
  latitude : ℚ
  altitude : ℚ
  reached : Bool
  reachedAt : Option ℕ
  timesMarked : ℕ
deriving DecidableEq, Repr

/-- The database slice owned by one mission: the mission row (if present),
its drone row (if present) and its waypoint batch in `sequence` order. -/
structure Db where
  mission : Option MissionRec
  drone : Option DroneRec
  waypoints : List Waypoint
deriving DecidableEq, Repr

/-! ### Fleet service (`fleet.service.ts`) -/

/-- `fleetService.updateDrone(id, { status })`: Prisma `update` throws when
the row is absent. -/
def fleetUpdateDroneStatus (db : Db) (s : DroneStatus) : Except String Db :=
  match db.drone with
  | none => .error "Record to update not found"
  | some d => .ok { db with drone := some { d with status := s } }

/-- `fleetService.updateDronePosition(id, position)`. -/
def fleetUpdateDronePosition (db : Db) (lng lat alt : ℚ) :
    Except String Db :=
  match db.drone with
  | none => .error "Record to update not found"
  | some d =>
    let d1 : DroneRec := { d with longitude := lng, latitude := lat, altitude := alt }
    .ok { db with drone := some d1 }

/-- `fleetService.updateDroneBattery(id, battery)`: store the new battery
value, then — `if (battery < 20)` — set the drone's status to `CHARGING`
via `updateDrone`, whatever the previous status was. -/
def fleetUpdateDroneBattery (db : Db) (battery : ℚ) : Except String Db :=
  match db.drone with
  | none => .error "Record to update not found"
  | some d =>
    let db1 : Db := { db with drone := some { d with battery := battery } }
    if battery < 20 then fleetUpdateDroneStatus db1 DroneStatus.CHARGING
    else .ok db1

/-! ### Mission service state machine (`mission.service.ts`)

Each operation reads the mission row, throws before performing any write
when its guard fails, and otherwise applies its writes in source order
(drone update first where the source updates the drone first).  `now` is
the `new Date()` timestamp of the call. -/

/-- `MissionService.startMission`: legal from `PLANNED` or `PAUSED`; the
drone is set `IN_MISSION` and the mission `ACTIVE`.  The source performs no
drone-availability check here. -/
def startMission (db : Db) (now : ℕ) : Except String Db :=
  match db.mission with
  | none => .error "Mission not found"
  | some m =>
    if m.status ≠ MissionStatus.PLANNED ∧ m.status ≠ MissionStatus.PAUSED
    then .error "Mission cannot be started"
    else do
      let db1 ← fleetUpdateDroneStatus db DroneStatus.IN_MISSION
      let m1 : MissionRec := { m with status := MissionStatus.ACTIVE, startTime := some (m.startTime.getD now) }
      .ok { db1 with mission := some m1 }

/-- `MissionService.pauseMission`: legal only from `ACTIVE`. -/
def pauseMission (db : Db) : Except String Db :=
  match db.mission with
  | none => .error "Mission not found"
  | some m =>
    if m.status ≠ MissionStatus.ACTIVE
    then .error "Only active missions can be paused"
    else
      let m1 : MissionRec := { m with status := MissionStatus.PAUSED }
      .ok { db with mission := some m1 }

/-- `MissionService.resumeMission`: legal only from `PAUSED`. -/
def resumeMission (db : Db) : Except String Db :=
  match db.mission with
  | none => .error "Mission not found"
  | some m =>
    if m.status ≠ MissionStatus.PAUSED
    then .error "Only paused missions can be resumed"
    else
      let m1 : MissionRec := { m with status := MissionStatus.ACTIVE }
      .ok { db with mission := some m1 }

/-- `MissionService.abortMission`: legal unless already `COMPLETED` or
`ABORTED`; the drone is released to `AVAILABLE` and the mission ends
`ABORTED`. -/
def abortMission (db : Db) (now : ℕ) : Except String Db :=
  match db.mission with
  | none => .error "Mission not found"
  | some m =>
    if m.status = MissionStatus.COMPLETED ∨ m.status = MissionStatus.ABORTED
    then .error "Mission already finished"
    else do
      let db1 ← fleetUpdateDroneStatus db DroneStatus.AVAILABLE
      let m1 : MissionRec := { m with status := MissionStatus.ABORTED, endTime := some now }
      .ok { db1 with mission := some m1 }

/-- `MissionService.updateMissionProgress`: partial update of
`progress` / `currentWaypoint` / `distanceCovered`. -/
def updateMissionProgress (db : Db) (progress : ℚ) (cw : ℕ) (dc : ℚ) :
    Except String Db :=
  match db.mission with
  | none => .error "Mission not found"
  | some m =>
    let m1 : MissionRec := { m with progress := progress, currentWaypoint := cw, distanceCovered := dc }
    .ok { db with mission := some m1 }

/-- `MissionService.completeMission`: the source has no status guard — any
found mission is completed, the drone released to `AVAILABLE` and progress
forced to `100`. -/
def completeMission (db : Db) (now : ℕ) : Except String Db :=
  match db.mission with
  | none => .error "Mission not found"
  | some m =>
    let actualTime : ℚ := match m.startTime with
      | some s0 => ((now : ℚ) - (s0 : ℚ)) / 1000
      | none => 0
    do
      let db1 ← fleetUpdateDroneStatus db DroneStatus.AVAILABLE
      let m1 : MissionRec := { m with status := MissionStatus.COMPLETED, endTime := some now, actualTime := actualTime, progress := 100 }
      .ok { db1 with mission := some m1 }

/-! ### Simulation engine (`missionQueue.process` in simulation.service.ts)

The worker fetches the mission, its waypoint batch and its drone once, then
loops over waypoint segments; inside a segment it ticks once per simulated
second.  `c` counts the worker's database status reads (the serialization
points where a concurrent status write becomes visible) and `t` counts
elapsed ticks, used as the timestamp for `new Date()`. -/

instance : Inhabited Waypoint where
  default := ⟨0, 0, 0, false, none, 0⟩

/-- Worker environment: the geometry-kernel distance (haversine
`calculateDistance` in the source, kept abstract because it is
transcendental) and the schedule of concurrent external mission-status
writes, indexed by the worker's status-read counter. -/
structure SimCfg where
  dist : ℚ × ℚ → ℚ × ℚ → ℚ
  ext : ℕ → Option MissionStatus

/-- Telemetry events emitted by the worker (`emitDronePosition` /
`emitMissionProgress`). -/
inductive Ev where
  | pos (longitude latitude altitude battery speed : ℚ)
  | prog (progress : ℚ) (currentWaypoint totalWaypoints : ℕ)
      (distanceCovered eta : ℚ)
deriving DecidableEq, Repr

/-- Outcome of one tick of the inner step loop. -/
inductive TickOut where
  | cont | stopNotActive | abortedLow | errored (msg : String)
deriving DecidableEq, Repr

/-- Outcome of one whole segment of the inner step loop. -/
inductive SegExit where
  | segDone | notActive | aborted | err (msg : String)
deriving DecidableEq, Repr

/-- Outcome of a whole worker run. -/
inductive RunExit where
  | completed | stoppedNotActive | abortedLow | failed (msg : String)
  | fuelOut
deriving DecidableEq, Repr

/-- Result of one tick. -/
structure TickRes where
  db : Db
  evs : List Ev
  c : ℕ
  t : ℕ
  out : TickOut
deriving DecidableEq, Repr

/-- Result of one segment's step loop. -/
structure SegRes where
  db : Db
  evs : List Ev
  c : ℕ
  t : ℕ
  exit : SegExit
deriving DecidableEq, Repr

/-- Result of a worker run. -/
structure RunRes where
  db : Db
  evs : List Ev
  c : ℕ
  t : ℕ
  exit : RunExit
deriving DecidableEq, Repr

/-- A concurrent external status write (pause / resume / abort request)
landing just before the worker's `c`-th database status read. -/
def applyExt (cfg : SimCfg) (c : ℕ) (db : Db) : Db :=
  match cfg.ext c, db.mission with
  | some s, some m => { db with mission := some { m with status := s } }
  | _, _ => db

/-- Per-segment context captured before the step loop: waypoint count `n`,
segment index `i`, distance covered before this segment `d0`, the two
endpoint waypoints, the kernel distance between them, the whole-second step
count, and the mission `speed` / `estimatedTime` captured at worker
start. -/
structure SegCtx where
  n : ℕ
  i : ℕ
  d0 : ℚ
  fromW : ℚ × ℚ × ℚ
  toW : ℚ × ℚ × ℚ
  segDist : ℚ
  steps : ℕ
  speed : ℚ
  estTime : ℚ

/-- Tail of a tick (source lines 147–177): recompute overall progress from
the distance still to go on the segment, persist
progress / currentWaypoint / distanceCovered, and emit the
`mission:progress` event with the derived ETA.  `t + 1` is the
end-of-loop-body sleep. -/
def progressPersist (cfg : SimCfg) (sc : SegCtx) (position : ℚ × ℚ × ℚ)
    (db : Db) (evs : List Ev) (c t : ℕ) : TickRes :=
  let distanceToNext :=
    cfg.dist (position.1, position.2.1) (sc.toW.1, sc.toW.2.1)
  let segmentProgress := 1 - distanceToNext / sc.segDist
  let waypointsCompleted : ℚ := (sc.i : ℚ) + segmentProgress
  let overallProgress := waypointsCompleted / (sc.n : ℚ) * 100
  match updateMissionProgress db overallProgress sc.i
      (sc.d0 + sc.segDist * segmentProgress) with
  | .error e => ⟨db, evs, c, t, .errored e⟩
  | .ok db1 =>
    let remainingWaypoints := (sc.n : ℚ) - waypointsCompleted
    let estimatedTimeRemaining :=
      remainingWaypoints / (sc.n : ℚ) * sc.estTime
    ⟨db1,
     evs ++ [Ev.prog overallProgress sc.i sc.n
       (sc.d0 + sc.segDist * segmentProgress) estimatedTimeRemaining],
     c, t + 1, .cont⟩

/-- One tick of the inner step loop (source lines 99–178): fresh status
check (suspend unless `ACTIVE`), interpolate the position at `step/steps`
(a JS `0/0` for a zero-length segment is `NaN`; in `ℚ` it is `0` — the
difference only arises for duplicate consecutive waypoints), move the
drone, drain the battery by `0.1`, emit `drone:position`, abort the whole
mission when the battery falls below `10`, otherwise persist and emit
progress. -/
def tickRest (cfg : SimCfg) (sc : SegCtx) (s : ℕ) (db1 : Db)
    (c1 t : ℕ) : TickRes :=
  match db1.mission with
  | none => ⟨db1, [], c1, t, .stopNotActive⟩
  | some m =>
    if m.status ≠ MissionStatus.ACTIVE then ⟨db1, [], c1, t, .stopNotActive⟩
    else
      let p : ℚ := (s : ℚ) / (sc.steps : ℚ)
      let position := interpolatePosition sc.fromW sc.toW p
      match fleetUpdateDronePosition db1 position.1 position.2.1
          position.2.2 with
      | .error e => ⟨db1, [], c1, t, .errored e⟩
      | .ok db2 =>
        match db2.drone with
        | none => progressPersist cfg sc position db2 [] c1 t
        | some d =>
          let newBattery := max 0 (d.battery - 1/10)
          match fleetUpdateDroneBattery db2 newBattery with
          | .error e => ⟨db2, [], c1, t, .errored e⟩
          | .ok db3 =>
            let evs := [Ev.pos position.1 position.2.1 position.2.2
              newBattery sc.speed]
            if newBattery < 10 then
              match abortMission db3 t with
              | .ok db4 => ⟨db4, evs, c1, t, .abortedLow⟩
              | .error e => ⟨db3, evs, c1, t, .errored e⟩
            else progressPersist cfg sc position db3 evs c1 t

/-- One tick: the fresh status read (with any concurrent external write
landing just before it) followed by the rest of the loop body. -/
def tickBody (cfg : SimCfg) (sc : SegCtx) (s : ℕ) (db : Db) (c t : ℕ) :
    TickRes :=
  tickRest cfg sc s (applyExt cfg c db) (c + 1) t

/-- `prisma.waypoint.update` marking waypoint `j` reached at time `t`
(source lines 180–187); bumps the ghost update counter. -/
def markWaypoint (l : List Waypoint) (j : ℕ) (t : ℕ) : List Waypoint :=
  let w := l.getD j default
  l.set j { w with reached := true, reachedAt := some t,
                   timesMarked := w.timesMarked + 1 }

/-- The inner `for (step = 0; step <= steps; step++)` loop, run with
`count = steps + 1 - s` remaining iterations. -/
def runSteps (cfg : SimCfg) (sc : SegCtx) :
    ℕ → ℕ → Db → ℕ → ℕ → SegRes
  | 0, _, db, c, t => ⟨db, [], c, t, .segDone⟩
  | count + 1, s, db, c, t =>
    let r := tickBody cfg sc s db c t
    match r.out with
    | .cont =>
      let r2 := runSteps cfg sc count (s + 1) r.db r.c r.t
      ⟨r2.db, r.evs ++ r2.evs, r2.c, r2.t, r2.exit⟩
    | .stopNotActive => ⟨r.db, r.evs, r.c, r.t, .notActive⟩
    | .abortedLow => ⟨r.db, r.evs, r.c, r.t, .aborted⟩
    | .errored e => ⟨r.db, r.evs, r.c, r.t, .err e⟩

/-- The per-segment context computed at the top of an iteration of the
outer loop: endpoint rows `waypoints[i]` / `waypoints[i+1]`, their kernel
distance, and the whole-second step count
`Math.ceil(segmentTime / (updateInterval / 1000))`. -/
def segCtxOf (cfg : SimCfg) (n : ℕ) (speed estTime : ℚ)
    (wps : List Waypoint) (i : ℕ) (d0 : ℚ) : SegCtx :=
  let fromRow := wps.getD i default
  let toRow := wps.getD (i + 1) default
  let fromW : ℚ × ℚ × ℚ :=
    (fromRow.longitude, fromRow.latitude, fromRow.altitude)
  let toW : ℚ × ℚ × ℚ :=
    (toRow.longitude, toRow.latitude, toRow.altitude)
  let segDist := cfg.dist (fromW.1, fromW.2.1) (toW.1, toW.2.1)
  let segTime := segDist / speed
  let steps := (Int.ceil segTime).toNat
  ⟨n, i, d0, fromW, toW, segDist, steps, speed, estTime⟩

/-- The outer `while (currentWaypointIndex < waypoints.length - 1)` loop.
`wps` is the waypoint batch fetched once at worker start (the source's
local `waypoints` array, never re-read), while `db.waypoints` is the
database copy the marks are written to.  A `break` (mission no longer
`ACTIVE` at the top-of-loop check) falls through to
`missionService.completeMission`, exactly as in the source.  Each
iteration advances `i`, so `fuel = n + 1` never runs out. -/
def runSegments (cfg : SimCfg) (n : ℕ) (speed estTime : ℚ)
    (wps : List Waypoint) : ℕ → ℕ → ℚ → Db → ℕ → ℕ → RunRes
  | 0, _, _, db, c, t => ⟨db, [], c, t, .fuelOut⟩
  | fuel + 1, i, d0, db, c, t =>
    if i + 1 < n then
      let db1 := applyExt cfg c db
      let c1 := c + 1
      let continueSeg : Bool :=
        match db1.mission with
        | some m => m.status = MissionStatus.ACTIVE
        | none => false
      if continueSeg then
        let sc := segCtxOf cfg n speed estTime wps i d0
        let r := runSteps cfg sc (sc.steps + 1) 0 db1 c1 t
        match r.exit with
        | .segDone =>
          let db2 :=
            { r.db with waypoints := markWaypoint r.db.waypoints (i + 1) r.t }
          let r2 := runSegments cfg n speed estTime wps fuel (i + 1)
            (d0 + sc.segDist) db2 r.c r.t
          ⟨r2.db, r.evs ++ r2.evs, r2.c, r2.t, r2.exit⟩
        | .notActive => ⟨r.db, r.evs, r.c, r.t, .stoppedNotActive⟩
        | .aborted => ⟨r.db, r.evs, r.c, r.t, .abortedLow⟩
        | .err e => ⟨r.db, r.evs, r.c, r.t, .failed e⟩
      else
        match completeMission db1 t with
        | .ok db2 => ⟨db2, [], c1, t, .completed⟩
        | .error e => ⟨db1, [], c1, t, .failed e⟩
    else
      match completeMission db t with
      | .ok db2 => ⟨db2, [], c, t, .completed⟩
      | .error e => ⟨db, [], c, t, .failed e⟩

/-- The worker's `catch` block: `missionService.abortMission(missionId)`;
if that throws too (mission gone or already finished) the state is left as
it was and the job fails. -/
def catchAbort (db : Db) (t : ℕ) : Db :=
  match abortMission db t with
  | .ok db1 => db1
  | .error _ => db

/-- The whole `missionQueue.process` handler: initial fetches and guards,
the segment loop starting from the persisted
`currentWaypoint` / `distanceCovered`, and the `catch` that aborts the
mission on any internal failure. -/
def processMission (cfg : SimCfg) (db : Db) : RunRes :=
  match db.mission with
  | none => ⟨catchAbort db 0, [], 0, 0, .failed "Mission not found"⟩
  | some m =>
    if db.waypoints.isEmpty then
      ⟨catchAbort db 0, [], 0, 0, .failed "No waypoints found"⟩
    else
      match db.drone with
      | none => ⟨catchAbort db 0, [], 0, 0, .failed "Drone not found"⟩
      | some _ =>
        let wps := db.waypoints
        let r := runSegments cfg wps.length m.speed m.estimatedTime wps
          (wps.length + 1) m.currentWaypoint m.distanceCovered db 0 0
        match r.exit with
        | .failed e => ⟨catchAbort r.db r.t, r.evs, r.c, r.t, .failed e⟩
        | _ => r

/-! ### Observation helpers used by the statements -/

/-- Is an event a `drone:position` event? -/
def Ev.isPos : Ev → Bool
  | .pos _ _ _ _ _ => true
  | _ => false

/-- The battery carried by a `drone:position` event. -/
def Ev.posBattery : Ev → Option ℚ
  | .pos _ _ _ b _ => some b
  | _ => none

/-- The progress value carried by a `mission:progress` event. -/
def Ev.progOf : Ev → Option ℚ
  | .prog p _ _ _ _ => some p
  | _ => none

/-- The persisted/emitted progress trace of a run. -/
def progressValues (evs : List Ev) : List ℚ :=
  evs.filterMap Ev.progOf

/-- The mission status stored in the database slice. -/
def Db.missionStatus (db : Db) : Option MissionStatus :=
  db.mission.map (·.status)

/-- The drone status stored in the database slice. -/
def Db.droneStatus (db : Db) : Option DroneStatus :=
  db.drone.map (·.status)

/-- `true` when every `drone:position` event whose battery is below the
engine's low-battery threshold (10) is followed by no further
`drone:position` event. -/
def lowBatteryFinal : List Ev → Bool
  | [] => true
  | Ev.pos _ _ _ b _ :: rest =>
    (!(decide (b < 10)) || rest.all fun e => !e.isPos) &&
      lowBatteryFinal rest
  | _ :: rest => lowBatteryFinal rest

/-! ### Concrete scenario records for the closed statements -/

/-- A drone currently flying (`IN_MISSION`), battery 80. -/
def droneInMission : DroneRec := ⟨DroneStatus.IN_MISSION, 80, 0, 0, 0⟩

/-- A freshly created mission: `PLANNED`, nothing covered yet. -/
def missionPlanned : MissionRec :=
  ⟨MissionStatus.PLANNED, 0, 0, 0, 10, 100, 0, none, none⟩

/-- A planned mission whose associated drone is busy (`IN_MISSION`). -/
def dbPlannedInMission : Db :=
  ⟨some missionPlanned, some droneInMission, []⟩

/-- A mission already `COMPLETED` (illegal source state for every guarded
operation). -/
def missionDone : MissionRec :=
  { missionPlanned with status := MissionStatus.COMPLETED }

/-- Database slice with the completed mission and its drone. -/
def dbDone : Db := ⟨some missionDone, some droneInMission, []⟩

/-- A mission currently `ACTIVE`. -/
def missionActive : MissionRec :=
  { missionPlanned with status := MissionStatus.ACTIVE }

/-- Database slice with the active mission and its drone. -/
def dbActive : Db := ⟨some missionActive, some droneInMission, []⟩

/-- A worker environment with a constant kernel distance of 10 m and no
concurrent external status writes. -/
def cfgConst : SimCfg := ⟨fun _ _ => 10, fun _ => none⟩

/-- A busy drone whose battery (15) will fall into `(10, 20)` on the next
tick. -/
def droneLow : DroneRec := ⟨DroneStatus.IN_MISSION, 15, 0, 0, 0⟩

/-- Active mission flown by the low-battery drone. -/
def dbActiveLow : Db := ⟨some missionActive, some droneLow, []⟩

/-- A plain two-waypoint segment context (segment distance 10, one whole
step). -/
def segCtx0 : SegCtx := ⟨2, 0, 0, (0, 0, 50), (0, 1, 50), 10, 1, 10, 100⟩

/-- Position interpolated by the tick at step `s` of a segment. -/
def tickPos (sc : SegCtx) (s : ℕ) : ℚ × ℚ × ℚ :=
  interpolatePosition sc.fromW sc.toW ((s : ℚ) / (sc.steps : ℚ))

/-- The `segmentProgress` the tick at step `s` computes. -/
def segProgAt (cfg : SimCfg) (sc : SegCtx) (s : ℕ) : ℚ :=
  1 - cfg.dist ((tickPos sc s).1, (tickPos sc s).2.1)
        (sc.toW.1, sc.toW.2.1) / sc.segDist

/-- The overall progress the tick at step `s` persists. -/
def progAt (cfg : SimCfg) (sc : SegCtx) (s : ℕ) : ℚ :=
  ((sc.i : ℚ) + segProgAt cfg sc s) / (sc.n : ℚ) * 100

/-- The cumulative distance the tick at step `s` persists. -/
def dcAt (cfg : SimCfg) (sc : SegCtx) (s : ℕ) : ℚ :=
  sc.d0 + sc.segDist * segProgAt cfg sc s

/-- The ETA the tick at step `s` emits. -/
def etaAt (cfg : SimCfg) (sc : SegCtx) (s : ℕ) : ℚ :=
  ((sc.n : ℚ) - ((sc.i : ℚ) + segProgAt cfg sc s)) / (sc.n : ℚ) * sc.estTime

/-- The battery after the drain of one tick from battery `b`. -/
def drainAt (b : ℚ) : ℚ := max 0 (b - 1 / 10)

/-- Battery-range invariant on the database slice: whenever the drone row
exists its battery lies in `[0, 100]`. -/
def BatteryOk (db : Db) : Prop :=
  ∀ d, db.drone = some d → 0 ≤ d.battery ∧ d.battery ≤ 100

/-- First waypoint of the two-point concrete mission. -/
def wp0 : Waypoint := ⟨0, 0, 50, false, none, 0⟩

/-- Second waypoint of the two-point concrete mission. -/
def wp1 : Waypoint := ⟨0, 1, 50, false, none, 0⟩

/-- A fully charged busy drone. -/
def droneFull : DroneRec := ⟨DroneStatus.IN_MISSION, 100, 0, 0, 0⟩

/-- An `ACTIVE` two-waypoint mission with a fully charged drone. -/
def dbRun : Db := ⟨some missionActive, some droneFull, [wp0, wp1]⟩

/-- Far second waypoint (two update steps away at speed 10). -/
def wpB : Waypoint := ⟨0, 2, 50, false, none, 0⟩

/-- `ACTIVE` mission over `[wp0, wpB]` — a 20 m segment, two steps. -/
def dbRun2 : Db := ⟨some missionActive, some droneFull, [wp0, wpB]⟩

/-- A concrete geometry-kernel distance: 10 m per degree of latitude
(exact for the meridian segments used in the scenarios, where the
haversine of the source is likewise proportional to the latitude
difference). -/
def distLat : ℚ × ℚ → ℚ × ℚ → ℚ := fun p q => 10 * |q.2 - p.2|

/-- Worker environment with the latitude distance and no concurrent
writes. -/
def cfgLat : SimCfg := ⟨distLat, fun _ => none⟩

/-- A concurrent `pauseMission` status write landing just before the
worker's fourth database status read (the mid-segment check of step 2). -/
def extPause3 : ℕ → Option MissionStatus
  | 3 => some MissionStatus.PAUSED
  | _ => none

/-- Worker environment where that concurrent pause occurs. -/
def cfgPause : SimCfg := ⟨distLat, extPause3⟩

/-- The database slice after the paused run of `dbRun2` is resumed via
`resumeMission` (the state the restarted worker reads). -/
def dbResumed : Db :=
  match resumeMission (processMission cfgPause dbRun2).db with
  | .ok db2 => db2
  | .error _ => dbRun2

/-- Hypotheses on the kernel distance under which progress is monotone
within a segment: it is nonnegative, and along the linear interpolation
toward a segment's end waypoint the remaining distance to that end never
increases. -/
def DistMono (cfg : SimCfg) : Prop :=
  (∀ x y, 0 ≤ cfg.dist x y) ∧
  ∀ a b (p q : ℚ), 0 ≤ p → p ≤ q → q ≤ 1 →
    cfg.dist ((interpolatePosition a b q).1,
        (interpolatePosition a b q).2.1) (b.1, b.2.1) ≤
      cfg.dist ((interpolatePosition a b p).1,
        (interpolatePosition a b p).2.1) (b.1, b.2.1)

/-- Does a boundary edge meet the horizontal sweep line at latitude `L`
non-degenerately: one endpoint on the line, the other strictly above.
(Used at the bounding box's bottom line, where no vertex lies below.) -/
def straddlesAt (L : ℚ) (e : (ℚ × ℚ) × (ℚ × ℚ)) : Bool :=
  decide ((e.1.2 = L ∧ L < e.2.2) ∨ (e.2.2 = L ∧ L < e.1.2))

/-- Concrete unit-square survey polygon for the grid witness. -/
def squarePoly : List (ℚ × ℚ) := [(0, 0), (0, 1), (1, 1), (1, 0)]

-- THEOREMS-BELOW --

/-! ### Claims about the mission state machine -/

/-- Claim C9 (confirmed): interpolating a segment at progress 0 returns
exactly the `from` waypoint and at progress 1 exactly the `to` waypoint,
component-wise in longitude, latitude and altitude. -/
theorem c9_interpolate_round_trip (f t : ℚ × ℚ × ℚ) :
    interpolatePosition f t 0 = f ∧ interpolatePosition f t 1 = t := by
  obtain ⟨fx, fy, fz⟩ := f
  obtain ⟨tx, ty, tz⟩ := t
  constructor
  · simp [interpolatePosition]
  · simp only [interpolatePosition, Prod.mk.injEq]
    refine ⟨by ring, by ring, by ring⟩

/-- Claim C3 (confirmed): `generateCrosshatchPattern` returns exactly the
concatenation of two GRID passes over the same polygon, altitude and
spacing; because `generateGridPattern` ignores its angle argument, the
"rotated" second pass equals the first and the two halves are identical
sequences. -/
theorem c3_crosshatch_is_double_grid
    (polygon : List (ℚ × ℚ)) (altitude spacing : ℚ) :
    generateCrosshatchPattern polygon altitude spacing =
      generateGridPattern polygon altitude spacing 0 ++
        generateGridPattern polygon altitude spacing 0 ∧
    generateGridPattern polygon altitude spacing 90 =
      generateGridPattern polygon altitude spacing 0 :=
  ⟨rfl, rfl⟩

/-- Claim C1, counterexample: starting the `PLANNED` mission whose drone is
`IN_MISSION` does _not_ fail — it returns `ok`, the mission becomes
`ACTIVE` (not `PLANNED`) and the busy drone is re-marked `IN_MISSION`;
`startMission` performs no drone-availability check. -/
theorem c1_cex_start_succeeds_with_busy_drone :
    (startMission dbPlannedInMission 5).isOk = true ∧
    ((startMission dbPlannedInMission 5).toOption.bind Db.missionStatus) =
      some MissionStatus.ACTIVE := by
  decide

/-- Claim C1, amended: for every mission in status `PLANNED` whose
associated drone exists, the start operation succeeds regardless of the
drone's status (no `DroneUnavailable` check is made at start; the
availability check exists only in `createMission`): the mission becomes
`ACTIVE` and the drone is set `IN_MISSION`.  The original claim fails, see
the counterexample. -/
theorem c1_amended_start_ignores_drone_status
    (db : Db) (m : MissionRec) (d : DroneRec) (now : ℕ)
    (hm : db.mission = some m) (hst : m.status = MissionStatus.PLANNED)
    (hd : db.drone = some d) :
    ∃ db1, startMission db now = .ok db1 ∧
      db1.missionStatus = some MissionStatus.ACTIVE ∧
      db1.droneStatus = some DroneStatus.IN_MISSION := by
  obtain ⟨mo, dro, wps⟩ := db
  simp only at hm hd
  subst hm
  subst hd
  simp only [startMission, fleetUpdateDroneStatus]
  rw [if_neg (fun h => h.1 hst)]
  exact ⟨_, rfl, rfl, rfl⟩

/-- Claim C4, amended: `start`, `pause`, `resume` and `abort` do fail with
an error from any non-listed source state (throwing before their first
write, so the mission and drone rows are left unchanged), but `complete`
has no status precondition at all: whenever the mission and its drone
exist it succeeds from any status, forcing `COMPLETED` and releasing the
drone. -/
theorem c4_amended_guards (db : Db) (m : MissionRec) (now : ℕ)
    (hm : db.mission = some m) :
    (m.status ≠ MissionStatus.PLANNED ∧ m.status ≠ MissionStatus.PAUSED →
      ∃ e, startMission db now = .error e) ∧
    (m.status ≠ MissionStatus.ACTIVE →
      ∃ e, pauseMission db = .error e) ∧
    (m.status ≠ MissionStatus.PAUSED →
      ∃ e, resumeMission db = .error e) ∧
    (m.status = MissionStatus.COMPLETED ∨ m.status = MissionStatus.ABORTED →
      ∃ e, abortMission db now = .error e) ∧
    (db.drone.isSome →
      ∃ db1, completeMission db now = .ok db1 ∧
        db1.missionStatus = some MissionStatus.COMPLETED ∧
        db1.droneStatus = some DroneStatus.AVAILABLE) := by
  obtain ⟨mo, dro, wps⟩ := db
  simp only at hm
  subst hm
  refine ⟨?_, ?_, ?_, ?_, ?_⟩
  · intro h
    simp only [startMission]
    rw [if_pos h]
    exact ⟨_, rfl⟩
  · intro h
    simp only [pauseMission]
    rw [if_pos h]
    exact ⟨_, rfl⟩
  · intro h
    simp only [resumeMission]
    rw [if_pos h]
    exact ⟨_, rfl⟩
  · intro h
    simp only [abortMission]
    rw [if_pos h]
    exact ⟨_, rfl⟩
  · intro h
    obtain ⟨d, hd⟩ := Option.isSome_iff_exists.mp h
    simp only at hd
    subst hd
    simp only [completeMission, fleetUpdateDroneStatus]
    exact ⟨_, rfl, rfl, rfl⟩

/-- Claim C6 (confirmed): aborting any existing mission that is not already
`COMPLETED` or `ABORTED` succeeds, leaves the mission `ABORTED` and the
associated (existing) drone `AVAILABLE`, whatever the tick/time of the
call. -/
theorem c6_abort_releases_drone (db : Db) (m : MissionRec) (now : ℕ)
    (hm : db.mission = some m)
    (hc : m.status ≠ MissionStatus.COMPLETED)
    (ha : m.status ≠ MissionStatus.ABORTED)
    (hd : db.drone.isSome) :
    ∃ db1, abortMission db now = .ok db1 ∧
      db1.missionStatus = some MissionStatus.ABORTED ∧
      db1.droneStatus = some DroneStatus.AVAILABLE := by
  obtain ⟨mo, dro, wps⟩ := db
  simp only at hm
  subst hm
  obtain ⟨d, hdd⟩ := Option.isSome_iff_exists.mp hd
  simp only at hdd
  subst hdd
  simp only [abortMission, fleetUpdateDroneStatus]
  rw [if_neg (fun h => h.elim hc ha)]
  exact ⟨_, rfl, rfl, rfl⟩

/-- Claim C1, witness for the amended theorem at the concrete scenario. -/
theorem c1_witness :
    dbPlannedInMission.mission = some missionPlanned ∧
    missionPlanned.status = MissionStatus.PLANNED ∧
    dbPlannedInMission.drone = some droneInMission ∧
    ∃ db1, startMission dbPlannedInMission 5 = .ok db1 ∧
      db1.missionStatus = some MissionStatus.ACTIVE ∧
      db1.droneStatus = some DroneStatus.IN_MISSION :=
  ⟨rfl, rfl, rfl,
    c1_amended_start_ignores_drone_status dbPlannedInMission missionPlanned
      droneInMission 5 rfl rfl rfl⟩

/-- Claim C4, counterexample: `completeMission` has no status guard — on a
mission that is merely `PLANNED` (no waypoint ever reached) it succeeds,
marks the mission `COMPLETED` with progress forced to 100 and releases the
drone, contradicting "complete is only legal from ACTIVE with all
waypoints reached". -/
theorem c4_cex_complete_from_planned_succeeds :
    (completeMission dbPlannedInMission 1000).isOk = true ∧
    ((completeMission dbPlannedInMission 1000).toOption.bind
      Db.missionStatus) = some MissionStatus.COMPLETED ∧
    ((completeMission dbPlannedInMission 1000).toOption.bind
      Db.droneStatus) = some DroneStatus.AVAILABLE := by
  decide

/-- Claim C4, witness for the amended theorem at the completed-mission
scenario. -/
theorem c4_witness :
    (missionDone.status ≠ MissionStatus.PLANNED ∧
      missionDone.status ≠ MissionStatus.PAUSED) ∧
    missionDone.status ≠ MissionStatus.ACTIVE ∧
    missionDone.status ≠ MissionStatus.PAUSED ∧
    (missionDone.status = MissionStatus.COMPLETED ∨
      missionDone.status = MissionStatus.ABORTED) ∧
    dbDone.drone.isSome = true ∧
    (∃ e, startMission dbDone 7 = .error e) ∧
    (∃ e, pauseMission dbDone = .error e) ∧
    (∃ e, resumeMission dbDone = .error e) ∧
    (∃ e, abortMission dbDone 7 = .error e) ∧
    (∃ db1, completeMission dbDone 7 = .ok db1 ∧
      db1.missionStatus = some MissionStatus.COMPLETED ∧
      db1.droneStatus = some DroneStatus.AVAILABLE) := by
  have h := c4_amended_guards dbDone missionDone 7 rfl
  exact ⟨by decide, by decide, by decide, by decide, by decide,
    h.1 (by decide), h.2.1 (by decide), h.2.2.1 (by decide),
    h.2.2.2.1 (by decide), h.2.2.2.2 (by decide)⟩

/-- Claim C6, witness at a concrete input: aborting an `ACTIVE` mission. -/
theorem c6_witness :
    dbActive.mission = some missionActive ∧
    missionActive.status ≠ MissionStatus.COMPLETED ∧
    missionActive.status ≠ MissionStatus.ABORTED ∧
    dbActive.drone.isSome = true ∧
    ∃ db1, abortMission dbActive 42 = .ok db1 ∧
      db1.missionStatus = some MissionStatus.ABORTED ∧
      db1.droneStatus = some DroneStatus.AVAILABLE :=
  ⟨rfl, by decide, by decide, rfl,
    c6_abort_releases_drone dbActive missionActive 42 rfl (by decide)
      (by decide) rfl⟩
/-- Claim C10 (confirmed): `updateDroneBattery` called with a value below
20 additionally sets the drone `CHARGING` regardless of its current
status; consequently a tick of the engine on an `ACTIVE` mission whose
drone battery lands in `(10, 20)` reclassifies the drone `CHARGING` while
the tick continues normally and the mission stays `ACTIVE` — the engine's
own abort threshold is only `battery < 10`. -/
theorem c10_low_battery_charging :
    (∀ (db : Db) (d : DroneRec) (b : ℚ), db.drone = some d → b < 20 →
      ∃ db1, fleetUpdateDroneBattery db b = .ok db1 ∧
        db1.droneStatus = some DroneStatus.CHARGING) ∧
    (∀ (cfg : SimCfg) (sc : SegCtx) (s : ℕ) (db : Db) (m : MissionRec)
        (d : DroneRec) (c t : ℕ), cfg.ext c = none →
      db.mission = some m → m.status = MissionStatus.ACTIVE →
      db.drone = some d → 10 < d.battery - 1/10 → d.battery - 1/10 < 20 →
      (tickBody cfg sc s db c t).out = TickOut.cont ∧
      (tickBody cfg sc s db c t).db.droneStatus =
        some DroneStatus.CHARGING ∧
      (tickBody cfg sc s db c t).db.missionStatus =
        some MissionStatus.ACTIVE) := by
  constructor
  · intro db d b hd hb
    obtain ⟨mo, dro, wps⟩ := db
    simp only at hd
    subst hd
    simp only [fleetUpdateDroneBattery, fleetUpdateDroneStatus]
    rw [if_pos hb]
    exact ⟨_, rfl, rfl⟩
  · intro cfg sc s db m d c t hext hm hst hd h10 h20
    obtain ⟨mo, dro, wps⟩ := db
    simp only at hm hd
    subst hm
    subst hd
    have hmax : max 0 (d.battery - 1 / 10) = d.battery - 1 / 10 :=
      max_eq_right (by linarith)
    have e20 : (d.battery - 1 / 10 < 20) ↔ True := iff_true_intro h20
    have e10 : (d.battery - 1 / 10 < 10) ↔ False :=
      iff_false_intro (by linarith)
    simp only [tickBody, tickRest, applyExt, hext, fleetUpdateDronePosition,
      fleetUpdateDroneBattery, fleetUpdateDroneStatus, progressPersist,
      updateMissionProgress, hst, hmax, e20, e10, if_true, if_false,
      ite_true, ite_false]
    exact ⟨rfl, rfl, rfl⟩

/-- Claim C10, witness: battery 15 drains to 14.9 ∈ (10,20); the drone is
reclassified `CHARGING`, the tick continues, the mission stays `ACTIVE`. -/
theorem c10_witness :
    dbActiveLow.drone = some droneLow ∧ (15 : ℚ) < 20 ∧
    (∃ db1, fleetUpdateDroneBattery dbActiveLow 15 = .ok db1 ∧
      db1.droneStatus = some DroneStatus.CHARGING) ∧
    cfgConst.ext 0 = none ∧ dbActiveLow.mission = some missionActive ∧
    missionActive.status = MissionStatus.ACTIVE ∧
    10 < droneLow.battery - 1 / 10 ∧ droneLow.battery - 1 / 10 < 20 ∧
    (tickBody cfgConst segCtx0 0 dbActiveLow 0 0).out = TickOut.cont ∧
    (tickBody cfgConst segCtx0 0 dbActiveLow 0 0).db.droneStatus =
      some DroneStatus.CHARGING ∧
    (tickBody cfgConst segCtx0 0 dbActiveLow 0 0).db.missionStatus =
      some MissionStatus.ACTIVE := by
  have h2 := c10_low_battery_charging.2 cfgConst segCtx0 0 dbActiveLow
    missionActive droneLow 0 0 rfl rfl rfl rfl (by norm_num [droneLow])
    (by norm_num [droneLow])
  exact ⟨rfl, by norm_num,
    c10_low_battery_charging.1 dbActiveLow droneLow 15 rfl (by norm_num),
    rfl, rfl, rfl, by norm_num [droneLow], by norm_num [droneLow],
    h2.1, h2.2.1, h2.2.2⟩

/-! ### Characterization of one engine tick -/

/-- `applyExt` only touches the mission row. -/
theorem applyExt_drone (cfg : SimCfg) (c : ℕ) (db : Db) :
    (applyExt cfg c db).drone = db.drone := by
  unfold applyExt
  rcases cfg.ext c with _ | s <;> rcases db.mission with _ | m <;> rfl

/-- `applyExt` only touches the mission row. -/
theorem applyExt_waypoints (cfg : SimCfg) (c : ℕ) (db : Db) :
    (applyExt cfg c db).waypoints = db.waypoints := by
  unfold applyExt
  rcases cfg.ext c with _ | s <;> rcases db.mission with _ | m <;> rfl

/-- With no external write scheduled, `applyExt` is the identity. -/
theorem applyExt_none (cfg : SimCfg) (c : ℕ) (db : Db)
    (h : cfg.ext c = none) : applyExt cfg c db = db := by
  unfold applyExt
  rw [h]

/-- A tick whose fresh status read does not see `ACTIVE` suspends the
worker with no event and no write. -/
theorem tickRest_eq_notActive (cfg : SimCfg) (sc : SegCtx) (s : ℕ)
    (db1 : Db) (c1 t : ℕ)
    (h : ∀ m, db1.mission = some m → m.status ≠ MissionStatus.ACTIVE) :
    tickRest cfg sc s db1 c1 t = ⟨db1, [], c1, t, .stopNotActive⟩ := by
  unfold tickRest
  rcases hm : db1.mission with _ | m
  · rfl
  · simp only [hm]
    rw [if_pos (h m hm)]

/-- A tick on an `ACTIVE` mission whose drained battery stays at or above
the abort threshold: position moved, battery drained (`CHARGING` when the
new value is below 20), `drone:position` and `mission:progress` emitted,
progress persisted, loop continues. -/
theorem tickRest_eq_cont (cfg : SimCfg) (sc : SegCtx) (s : ℕ)
    (m : MissionRec) (d : DroneRec) (wps : List Waypoint) (c1 t : ℕ)
    (hst : m.status = MissionStatus.ACTIVE)
    (hnb : ¬ drainAt d.battery < 10) :
    tickRest cfg sc s ⟨some m, some d, wps⟩ c1 t =
      ⟨⟨some { m with
               progress := progAt cfg sc s,
               currentWaypoint := sc.i,
               distanceCovered := dcAt cfg sc s },
        some ⟨if drainAt d.battery < 20 then DroneStatus.CHARGING
              else d.status,
              drainAt d.battery, (tickPos sc s).1, (tickPos sc s).2.1,
              (tickPos sc s).2.2⟩,
        wps⟩,
       [Ev.pos (tickPos sc s).1 (tickPos sc s).2.1 (tickPos sc s).2.2
          (drainAt d.battery) sc.speed,
        Ev.prog (progAt cfg sc s) sc.i sc.n (dcAt cfg sc s)
          (etaAt cfg sc s)],
       c1, t + 1, .cont⟩ := by
  simp only [drainAt] at hnb ⊢
  have hact : (m.status ≠ MissionStatus.ACTIVE) = False := by simp [hst]
  have h10 : (max 0 (d.battery - 1/10) < 10) = False := eq_false hnb
  simp only [tickRest, fleetUpdateDronePosition, fleetUpdateDroneBattery,
    fleetUpdateDroneStatus, progressPersist, updateMissionProgress,
    tickPos, segProgAt, progAt, dcAt, etaAt, hact, h10, if_false,
    ite_false]
  by_cases h20 : max 0 (d.battery - 1/10) < 20
  · rw [if_pos h20, if_pos h20]
    rfl
  · rw [if_neg h20, if_neg h20]
    rfl

/-- A tick on an `ACTIVE` mission whose drained battery falls below the
abort threshold 10: the position update and the `drone:position` event
still happen, then the mission is aborted (engine-driven) — mission
`ABORTED`, drone `AVAILABLE` — and the worker returns with no progress
persist and no further event. -/
theorem tickRest_eq_abort (cfg : SimCfg) (sc : SegCtx) (s : ℕ)
    (m : MissionRec) (d : DroneRec) (wps : List Waypoint) (c1 t : ℕ)
    (hst : m.status = MissionStatus.ACTIVE)
    (hnb : drainAt d.battery < 10) :
    tickRest cfg sc s ⟨some m, some d, wps⟩ c1 t =
      ⟨⟨some { m with
               status := MissionStatus.ABORTED, endTime := some t },
        some ⟨DroneStatus.AVAILABLE, drainAt d.battery,
              (tickPos sc s).1, (tickPos sc s).2.1, (tickPos sc s).2.2⟩,
        wps⟩,
       [Ev.pos (tickPos sc s).1 (tickPos sc s).2.1 (tickPos sc s).2.2
          (drainAt d.battery) sc.speed],
       c1, t, .abortedLow⟩ := by
  simp only [drainAt] at hnb ⊢
  have hact : (m.status ≠ MissionStatus.ACTIVE) = False := by simp [hst]
  have h10 : (max 0 (d.battery - 1/10) < 10) = True := eq_true hnb
  have h20 : (max 0 (d.battery - 1/10) < 20) = True :=
    eq_true (lt_trans hnb (by norm_num))
  have habort : (m.status = MissionStatus.COMPLETED ∨
      m.status = MissionStatus.ABORTED) = False := by
    simp [hst]
  simp only [tickRest, fleetUpdateDronePosition, fleetUpdateDroneBattery,
    fleetUpdateDroneStatus, abortMission, tickPos, hact, h10, h20,
    habort, if_false, ite_false, if_true, ite_true]
  rfl

/-- A tick on an `ACTIVE` mission whose drone row is missing: the Prisma
position update throws and the tick reports the failure. -/
theorem tickRest_eq_errNoDrone (cfg : SimCfg) (sc : SegCtx) (s : ℕ)
    (m : MissionRec) (wps : List Waypoint) (c1 t : ℕ)
    (hst : m.status = MissionStatus.ACTIVE) :
    tickRest cfg sc s ⟨some m, none, wps⟩ c1 t =
      ⟨⟨some m, none, wps⟩, [], c1, t,
       .errored "Record to update not found"⟩ := by
  have hact : (m.status ≠ MissionStatus.ACTIVE) = False := by simp [hst]
  simp only [tickRest, fleetUpdateDronePosition, hact, if_false,
    ite_false]

/-- Exhaustive shape of one tick: either the status check suspends the
worker, or the drone row is missing and the tick errors, or the mission is
`ACTIVE` with a drone and the tick either aborts on low battery or
continues. -/
theorem tickBody_shape (cfg : SimCfg) (sc : SegCtx) (s : ℕ) (db : Db)
    (c t : ℕ) :
    ((∀ m, (applyExt cfg c db).mission = some m →
        m.status ≠ MissionStatus.ACTIVE) ∧
      tickBody cfg sc s db c t =
        ⟨applyExt cfg c db, [], c + 1, t, .stopNotActive⟩) ∨
    ((applyExt cfg c db).drone = db.drone ∧ db.drone = none ∧
      tickBody cfg sc s db c t =
        ⟨applyExt cfg c db, [], c + 1, t,
         .errored "Record to update not found"⟩) ∨
    (∃ m d, (applyExt cfg c db).mission = some m ∧
      m.status = MissionStatus.ACTIVE ∧ db.drone = some d ∧
      ((drainAt d.battery < 10 ∧
        tickBody cfg sc s db c t =
          ⟨⟨some { m with
                   status := MissionStatus.ABORTED, endTime := some t },
            some ⟨DroneStatus.AVAILABLE, drainAt d.battery,
                  (tickPos sc s).1, (tickPos sc s).2.1,
                  (tickPos sc s).2.2⟩,
            db.waypoints⟩,
           [Ev.pos (tickPos sc s).1 (tickPos sc s).2.1 (tickPos sc s).2.2
              (drainAt d.battery) sc.speed],
           c + 1, t, .abortedLow⟩) ∨
       (¬ drainAt d.battery < 10 ∧
        tickBody cfg sc s db c t =
          ⟨⟨some { m with
                   progress := progAt cfg sc s,
                   currentWaypoint := sc.i,
                   distanceCovered := dcAt cfg sc s },
            some ⟨if drainAt d.battery < 20 then DroneStatus.CHARGING
                  else d.status,
                  drainAt d.battery, (tickPos sc s).1, (tickPos sc s).2.1,
                  (tickPos sc s).2.2⟩,
            db.waypoints⟩,
           [Ev.pos (tickPos sc s).1 (tickPos sc s).2.1 (tickPos sc s).2.2
              (drainAt d.battery) sc.speed,
            Ev.prog (progAt cfg sc s) sc.i sc.n (dcAt cfg sc s)
              (etaAt cfg sc s)],
           c + 1, t + 1, .cont⟩))) := by
  have hbody : tickBody cfg sc s db c t =
      tickRest cfg sc s (applyExt cfg c db) (c + 1) t := rfl
  have hdro := applyExt_drone cfg c db
  have hwp := applyExt_waypoints cfg c db
  rcases hdb1 : applyExt cfg c db with ⟨mo, dro, w⟩
  rw [hdb1] at hbody hdro hwp
  simp only at hdro hwp
  subst hdro
  subst hwp
  rcases mo with _ | m
  · left
    refine ⟨fun m hm => absurd hm (by simp), ?_⟩
    rw [hbody]
    exact tickRest_eq_notActive cfg sc s _ (c + 1) t
      (fun m hm => absurd hm (by simp))
  · by_cases hst : m.status = MissionStatus.ACTIVE
    · rcases hdrone : db.drone with _ | d
      · right; left
        rw [hdrone] at hbody
        refine ⟨rfl, rfl, ?_⟩
        rw [hbody]
        exact tickRest_eq_errNoDrone cfg sc s m db.waypoints (c + 1) t hst
      · right; right
        rw [hdrone] at hbody
        refine ⟨m, d, rfl, hst, rfl, ?_⟩
        by_cases hnb : drainAt d.battery < 10
        · left
          refine ⟨hnb, ?_⟩
          rw [hbody]
          exact tickRest_eq_abort cfg sc s m d db.waypoints (c + 1) t
            hst hnb
        · right
          refine ⟨hnb, ?_⟩
          rw [hbody]
          exact tickRest_eq_cont cfg sc s m d db.waypoints (c + 1) t
            hst hnb
    · left
      constructor
      · intro m' hm'
        simp only [Option.some.injEq] at hm'
        subst hm'
        exact hst
      · rw [hbody]
        refine tickRest_eq_notActive cfg sc s _ (c + 1) t ?_
        intro m' hm'
        simp only [Option.some.injEq] at hm'
        subst hm'
        exact hst
theorem drainAt_nonneg (b : ℚ) : 0 ≤ drainAt b := le_max_left 0 _

theorem drainAt_le_100 (b : ℚ) (h : b ≤ 100) : drainAt b ≤ 100 :=
  max_le (by norm_num) (by linarith)

theorem completeMission_ok_shape (db : Db) (now : ℕ) (db2 : Db)
    (h : completeMission db now = .ok db2) :
    ∃ m d, db.mission = some m ∧ db.drone = some d ∧
      db2.mission = some { m with
        status := MissionStatus.COMPLETED, endTime := some now,
        actualTime := (match m.startTime with
          | some s0 => ((now : ℚ) - (s0 : ℚ)) / 1000
          | none => 0),
        progress := 100 } ∧
      db2.drone = some { d with status := DroneStatus.AVAILABLE } ∧
      db2.waypoints = db.waypoints := by
  rcases db with ⟨mo, dro, w⟩
  rcases mo with _ | m
  · simp [completeMission] at h
  rcases dro with _ | d
  · simp [completeMission, fleetUpdateDroneStatus, Except.instMonad,
      Bind.bind, Except.bind] at h
  refine ⟨m, d, rfl, rfl, ?_⟩
  simp only [completeMission, fleetUpdateDroneStatus,
    Except.instMonad, Bind.bind, Except.bind, Except.ok.injEq] at h
  subst h
  exact ⟨rfl, rfl, rfl⟩

theorem abortMission_ok_shape (db : Db) (now : ℕ) (db2 : Db)
    (h : abortMission db now = .ok db2) :
    ∃ m d, db.mission = some m ∧ db.drone = some d ∧
      db2.mission = some { m with
        status := MissionStatus.ABORTED, endTime := some now } ∧
      db2.drone = some { d with status := DroneStatus.AVAILABLE } ∧
      db2.waypoints = db.waypoints := by
  rcases db with ⟨mo, dro, w⟩
  rcases mo with _ | m
  · simp [abortMission] at h
  by_cases hs : m.status = MissionStatus.COMPLETED ∨
      m.status = MissionStatus.ABORTED
  · simp [abortMission, hs] at h
  rcases dro with _ | d
  · simp [abortMission, hs, fleetUpdateDroneStatus, Except.instMonad,
      Bind.bind, Except.bind] at h
  refine ⟨m, d, rfl, rfl, ?_⟩
  simp only [abortMission, fleetUpdateDroneStatus, hs, if_false,
    ite_false, Except.instMonad, Bind.bind, Except.bind,
    Except.ok.injEq] at h
  subst h
  exact ⟨rfl, rfl, rfl⟩
theorem runSteps_battery_low (cfg : SimCfg) (sc : SegCtx) (count : ℕ) :
    ∀ (s : ℕ) (db : Db) (c t : ℕ), BatteryOk db →
      BatteryOk (runSteps cfg sc count s db c t).db ∧
      (∀ e ∈ (runSteps cfg sc count s db c t).evs, ∀ b,
        e.posBattery = some b → 0 ≤ b ∧ b ≤ 100) ∧
      lowBatteryFinal (runSteps cfg sc count s db c t).evs = true ∧
      (∀ e ∈ (runSteps cfg sc count s db c t).evs, ∀ b,
        e.posBattery = some b → b < 10 →
        (runSteps cfg sc count s db c t).exit = SegExit.aborted ∧
        (runSteps cfg sc count s db c t).db.missionStatus =
          some MissionStatus.ABORTED ∧
        (runSteps cfg sc count s db c t).db.droneStatus =
          some DroneStatus.AVAILABLE) := by
  induction count with
  | zero =>
    intro s db c t h
    exact ⟨h, by simp [runSteps], by simp [runSteps, lowBatteryFinal],
      by simp [runSteps]⟩
  | succ k ih =>
    intro s db c t h
    rcases tickBody_shape cfg sc s db c t with ⟨hne, heq⟩ |
      ⟨hd1, hd0, heq⟩ |
      ⟨m, d, hm, hst, hd, ⟨hnb, heq⟩ | ⟨hnb, heq⟩⟩
    · -- suspended: no event, state applyExt db
      have hres : runSteps cfg sc (k + 1) s db c t =
          ⟨applyExt cfg c db, [], c + 1, t, .notActive⟩ := by
        simp only [runSteps, heq]
      rw [hres]
      refine ⟨?_, by simp, by simp [lowBatteryFinal], by simp⟩
      intro d' hd'
      rw [applyExt_drone] at hd'
      exact h d' hd'
    · -- missing drone row: tick errors, no event
      have hres : runSteps cfg sc (k + 1) s db c t =
          ⟨applyExt cfg c db, [], c + 1, t,
           .err "Record to update not found"⟩ := by
        simp only [runSteps, heq]
      rw [hres]
      refine ⟨?_, by simp, by simp [lowBatteryFinal], by simp⟩
      intro d' hd'
      rw [applyExt_drone] at hd'
      exact h d' hd'
    · -- low battery: abort, single final position event
      have hb := h d hd
      have hres : runSteps cfg sc (k + 1) s db c t =
          ⟨⟨some { m with
                   status := MissionStatus.ABORTED, endTime := some t },
            some ⟨DroneStatus.AVAILABLE, drainAt d.battery,
                  (tickPos sc s).1, (tickPos sc s).2.1,
                  (tickPos sc s).2.2⟩,
            db.waypoints⟩,
           [Ev.pos (tickPos sc s).1 (tickPos sc s).2.1 (tickPos sc s).2.2
              (drainAt d.battery) sc.speed],
           c + 1, t, .aborted⟩ := by
        simp only [runSteps, heq]
      rw [hres]
      refine ⟨?_, ?_, ?_, ?_⟩
      · intro d' hd'
        simp only [Option.some.injEq] at hd'
        subst hd'
        exact ⟨drainAt_nonneg _, drainAt_le_100 _ hb.2⟩
      · intro e he b hbat
        simp only [List.mem_singleton] at he
        subst he
        simp only [Ev.posBattery, Option.some.injEq] at hbat
        subst hbat
        exact ⟨drainAt_nonneg _, drainAt_le_100 _ hb.2⟩
      · simp [lowBatteryFinal]
      · intro e he b hbat hlow
        simp only [List.mem_singleton] at he
        subst he
        exact ⟨rfl, rfl, rfl⟩
    · -- normal tick: recurse
      have hb := h d hd
      have hbOk : BatteryOk
          ⟨some { m with
                  progress := progAt cfg sc s,
                  currentWaypoint := sc.i,
                  distanceCovered := dcAt cfg sc s },
           some ⟨if drainAt d.battery < 20 then DroneStatus.CHARGING
                 else d.status,
                 drainAt d.battery, (tickPos sc s).1, (tickPos sc s).2.1,
                 (tickPos sc s).2.2⟩,
           db.waypoints⟩ := by
        intro d' hd'
        simp only [Option.some.injEq] at hd'
        subst hd'
        exact ⟨drainAt_nonneg _, drainAt_le_100 _ hb.2⟩
      have hrec := ih (s + 1)
        ⟨some { m with
                progress := progAt cfg sc s,
                currentWaypoint := sc.i,
                distanceCovered := dcAt cfg sc s },
         some ⟨if drainAt d.battery < 20 then DroneStatus.CHARGING
               else d.status,
               drainAt d.battery, (tickPos sc s).1, (tickPos sc s).2.1,
               (tickPos sc s).2.2⟩,
         db.waypoints⟩ (c + 1) (t + 1) hbOk
      have hres : runSteps cfg sc (k + 1) s db c t =
          ⟨(runSteps cfg sc k (s + 1)
              ⟨some { m with
                      progress := progAt cfg sc s,
                      currentWaypoint := sc.i,
                      distanceCovered := dcAt cfg sc s },
               some ⟨if drainAt d.battery < 20 then DroneStatus.CHARGING
                     else d.status,
                     drainAt d.battery, (tickPos sc s).1,
                     (tickPos sc s).2.1, (tickPos sc s).2.2⟩,
               db.waypoints⟩ (c + 1) (t + 1)).db,
           [Ev.pos (tickPos sc s).1 (tickPos sc s).2.1 (tickPos sc s).2.2
              (drainAt d.battery) sc.speed,
            Ev.prog (progAt cfg sc s) sc.i sc.n (dcAt cfg sc s)
              (etaAt cfg sc s)] ++
             (runSteps cfg sc k (s + 1)
               ⟨some { m with
                       progress := progAt cfg sc s,
                       currentWaypoint := sc.i,
                       distanceCovered := dcAt cfg sc s },
                some ⟨if drainAt d.battery < 20 then DroneStatus.CHARGING
                      else d.status,
                      drainAt d.battery, (tickPos sc s).1,
                      (tickPos sc s).2.1, (tickPos sc s).2.2⟩,
                db.waypoints⟩ (c + 1) (t + 1)).evs,
           (runSteps cfg sc k (s + 1)
              ⟨some { m with
                      progress := progAt cfg sc s,
                      currentWaypoint := sc.i,
                      distanceCovered := dcAt cfg sc s },
               some ⟨if drainAt d.battery < 20 then DroneStatus.CHARGING
                     else d.status,
                     drainAt d.battery, (tickPos sc s).1,
                     (tickPos sc s).2.1, (tickPos sc s).2.2⟩,
               db.waypoints⟩ (c + 1) (t + 1)).c,
           (runSteps cfg sc k (s + 1)
              ⟨some { m with
                      progress := progAt cfg sc s,
                      currentWaypoint := sc.i,
                      distanceCovered := dcAt cfg sc s },
               some ⟨if drainAt d.battery < 20 then DroneStatus.CHARGING
                     else d.status,
                     drainAt d.battery, (tickPos sc s).1,
                     (tickPos sc s).2.1, (tickPos sc s).2.2⟩,
               db.waypoints⟩ (c + 1) (t + 1)).t,
           (runSteps cfg sc k (s + 1)
              ⟨some { m with
                      progress := progAt cfg sc s,
                      currentWaypoint := sc.i,
                      distanceCovered := dcAt cfg sc s },
               some ⟨if drainAt d.battery < 20 then DroneStatus.CHARGING
                     else d.status,
                     drainAt d.battery, (tickPos sc s).1,
                     (tickPos sc s).2.1, (tickPos sc s).2.2⟩,
               db.waypoints⟩ (c + 1) (t + 1)).exit⟩ := by
        simp only [runSteps, heq]
      rw [hres]
      refine ⟨hrec.1, ?_, ?_, ?_⟩
      · intro e he b hbat
        rcases List.mem_append.mp he with he | he
        · simp only [List.mem_cons, List.mem_singleton,
            List.not_mem_nil, or_false] at he
          rcases he with rfl | rfl
          · simp only [Ev.posBattery, Option.some.injEq] at hbat
            subst hbat
            exact ⟨drainAt_nonneg _, drainAt_le_100 _ hb.2⟩
          · simp [Ev.posBattery] at hbat
        · exact hrec.2.1 e he b hbat
      · simp only [List.cons_append, List.nil_append, lowBatteryFinal,
          decide_eq_false hnb, Bool.not_false, Bool.true_or,
          Bool.true_and]
        exact hrec.2.2.1
      · intro e he b hbat hlow
        rcases List.mem_append.mp he with he | he
        · simp only [List.mem_cons, List.mem_singleton,
            List.not_mem_nil, or_false] at he
          rcases he with rfl | rfl
          · simp only [Ev.posBattery, Option.some.injEq] at hbat
            subst hbat
            exact absurd hlow hnb
          · simp [Ev.posBattery] at hbat
        · exact hrec.2.2.2 e he b hbat hlow

/-! ### Battery bounds and low-battery abort (claim C5) -/
theorem runSegments_battery_low (cfg : SimCfg) (n : ℕ)
    (speed estTime : ℚ) (wps : List Waypoint) (fuel : ℕ) :
    ∀ (i : ℕ) (d0 : ℚ) (db : Db) (c t : ℕ), BatteryOk db →
      BatteryOk (runSegments cfg n speed estTime wps fuel i d0 db c t).db ∧
      (∀ e ∈ (runSegments cfg n speed estTime wps fuel i d0 db c t).evs,
        ∀ b, e.posBattery = some b → 0 ≤ b ∧ b ≤ 100) ∧
      lowBatteryFinal
        (runSegments cfg n speed estTime wps fuel i d0 db c t).evs =
          true ∧
      (∀ e ∈ (runSegments cfg n speed estTime wps fuel i d0 db c t).evs,
        ∀ b, e.posBattery = some b → b < 10 →
        (runSegments cfg n speed estTime wps fuel i d0 db c t).exit =
          RunExit.abortedLow ∧
        (runSegments cfg n speed estTime wps fuel i d0 db c t).db.missionStatus =
          some MissionStatus.ABORTED ∧
        (runSegments cfg n speed estTime wps fuel i d0 db c t).db.droneStatus =
          some DroneStatus.AVAILABLE) := by
  induction fuel with
  | zero =>
    intro i d0 db c t h
    exact ⟨h, by simp [runSegments], by simp [runSegments, lowBatteryFinal],
      by simp [runSegments]⟩
  | succ fuel ih =>
    intro i d0 db c t h
    by_cases hlt : i + 1 < n
    case neg =>
      have hlt' : (i + 1 < n) = False := eq_false hlt
      rcases hc : completeMission db t with e | db2
      · have hres : runSegments cfg n speed estTime wps (fuel + 1) i d0
            db c t = ⟨db, [], c, t, .failed e⟩ := by
          simp only [runSegments, hlt', if_false, ite_false, hc]
        rw [hres]
        exact ⟨h, by simp, by simp [lowBatteryFinal], by simp⟩
      · have hres : runSegments cfg n speed estTime wps (fuel + 1) i d0
            db c t = ⟨db2, [], c, t, .completed⟩ := by
          simp only [runSegments, hlt', if_false, ite_false, hc]
        rw [hres]
        obtain ⟨m, d, hm, hd, hm2, hd2, hw2⟩ :=
          completeMission_ok_shape db t db2 hc
        refine ⟨?_, by simp, by simp [lowBatteryFinal], by simp⟩
        intro d' hd'
        rw [hd2] at hd'
        simp only [Option.some.injEq] at hd'
        subst hd'
        exact h d hd
    case pos =>
      have hlt' : (i + 1 < n) = True := eq_true hlt
      have hdro := applyExt_drone cfg c db
      have hwp := applyExt_waypoints cfg c db
      rcases hdb1 : applyExt cfg c db with ⟨mo, dro, w⟩
      rw [hdb1] at hdro hwp
      simp only at hdro hwp
      subst hdro
      subst hwp
      have hOk1 : BatteryOk (⟨mo, db.drone, db.waypoints⟩ : Db) := by
        intro d' hd'
        exact h d' hd'
      -- whether the outer status check keeps the loop alive
      by_cases hact : ∃ m, mo = some m ∧ m.status = MissionStatus.ACTIVE
      case neg =>
        -- break → completeMission on db1
        have hcont : (match (⟨mo, db.drone, db.waypoints⟩ : Db).mission with
            | some m => decide (m.status = MissionStatus.ACTIVE)
            | none => false) = false := by
          rcases mo with _ | m
          · rfl
          · simp only
            simp only [decide_eq_false_iff_not]
            intro hst
            exact hact ⟨m, rfl, hst⟩
        rcases hc : completeMission (⟨mo, db.drone, db.waypoints⟩ : Db) t
          with e | db2
        · have hres : runSegments cfg n speed estTime wps (fuel + 1) i d0
              db c t = ⟨⟨mo, db.drone, db.waypoints⟩, [], c + 1, t,
                .failed e⟩ := by
            simp only [runSegments, hlt', if_true, ite_true, hdb1, hcont,
              Bool.false_eq_true, if_false, ite_false, hc]
          rw [hres]
          exact ⟨hOk1, by simp, by simp [lowBatteryFinal], by simp⟩
        · have hres : runSegments cfg n speed estTime wps (fuel + 1) i d0
              db c t = ⟨db2, [], c + 1, t, .completed⟩ := by
            simp only [runSegments, hlt', if_true, ite_true, hdb1, hcont,
              Bool.false_eq_true, if_false, ite_false, hc]
          rw [hres]
          obtain ⟨m, d, hm, hd, hm2, hd2, hw2⟩ :=
            completeMission_ok_shape _ t db2 hc
          refine ⟨?_, by simp, by simp [lowBatteryFinal], by simp⟩
          intro d' hd'
          rw [hd2] at hd'
          simp only [Option.some.injEq] at hd'
          subst hd'
          exact hOk1 d hd
      case pos =>
        obtain ⟨m, rfl, hst⟩ := hact
        have hdec : decide (m.status = MissionStatus.ACTIVE) = true := by
          simp [hst]
        have key := runSteps_battery_low cfg
          (segCtxOf cfg n speed estTime wps i d0)
          ((segCtxOf cfg n speed estTime wps i d0).steps + 1) 0
          ⟨some m, db.drone, db.waypoints⟩ (c + 1) t hOk1
        rcases hr : runSteps cfg (segCtxOf cfg n speed estTime wps i d0)
            ((segCtxOf cfg n speed estTime wps i d0).steps + 1) 0
            ⟨some m, db.drone, db.waypoints⟩ (c + 1) t with
          ⟨rdb, revs, rc, rt, rexit⟩
        rw [hr] at key
        simp only at key
        rcases rexit with _ | _ | _ | e
        · -- segment finished: mark the waypoint and recurse
          have hOk2 : BatteryOk
              { rdb with waypoints := markWaypoint rdb.waypoints (i + 1) rt } := by
            intro d' hd'
            exact key.1 d' hd'
          have hrec := ih (i + 1)
            (d0 + (segCtxOf cfg n speed estTime wps i d0).segDist)
            { rdb with waypoints := markWaypoint rdb.waypoints (i + 1) rt }
            rc rt hOk2
          have hres : runSegments cfg n speed estTime wps (fuel + 1) i d0
              db c t =
              ⟨(runSegments cfg n speed estTime wps fuel (i + 1)
                  (d0 + (segCtxOf cfg n speed estTime wps i d0).segDist)
                  { rdb with
                    waypoints := markWaypoint rdb.waypoints (i + 1) rt }
                  rc rt).db,
               revs ++ (runSegments cfg n speed estTime wps fuel (i + 1)
                  (d0 + (segCtxOf cfg n speed estTime wps i d0).segDist)
                  { rdb with
                    waypoints := markWaypoint rdb.waypoints (i + 1) rt }
                  rc rt).evs,
               (runSegments cfg n speed estTime wps fuel (i + 1)
                  (d0 + (segCtxOf cfg n speed estTime wps i d0).segDist)
                  { rdb with
                    waypoints := markWaypoint rdb.waypoints (i + 1) rt }
                  rc rt).c,
               (runSegments cfg n speed estTime wps fuel (i + 1)
                  (d0 + (segCtxOf cfg n speed estTime wps i d0).segDist)
                  { rdb with
                    waypoints := markWaypoint rdb.waypoints (i + 1) rt }
                  rc rt).t,
               (runSegments cfg n speed estTime wps fuel (i + 1)
                  (d0 + (segCtxOf cfg n speed estTime wps i d0).segDist)
                  { rdb with
                    waypoints := markWaypoint rdb.waypoints (i + 1) rt }
                  rc rt).exit⟩ := by
            simp only [runSegments, hlt', if_true, ite_true, hdb1, hdec,
              eq_self_iff_true, hr]
          rw [hres]
          have hnolow : ∀ e ∈ revs, ∀ b, e.posBattery = some b →
              ¬ b < 10 := by
            intro e he b hb hlow
            have := (key.2.2.2 e he b hb hlow).1
            simp at this
          refine ⟨hrec.1, ?_, ?_, ?_⟩
          · intro e he b hb
            rcases List.mem_append.mp he with he | he
            · exact key.2.1 e he b hb
            · exact hrec.2.1 e he b hb
          · -- prefix has no low event, tail is fine
            clear hres hrec
            have htail := (ih (i + 1)
              (d0 + (segCtxOf cfg n speed estTime wps i d0).segDist)
              { rdb with waypoints := markWaypoint rdb.waypoints (i + 1) rt }
              rc rt hOk2).2.2.1
            revert hnolow
            generalize (runSegments cfg n speed estTime wps fuel (i + 1)
              (d0 + (segCtxOf cfg n speed estTime wps i d0).segDist)
              { rdb with waypoints := markWaypoint rdb.waypoints (i + 1) rt }
              rc rt).evs = tail at htail ⊢
            intro hnolow
            clear key hr
            induction revs with
            | nil => simpa using htail
            | cons e rest ihe =>
              rcases e with ⟨lng, lat, alt, b, sp⟩ | ⟨p, cw, tw, dc, eta⟩
              · simp only [List.cons_append, lowBatteryFinal]
                have hb : ¬ b < 10 :=
                  hnolow _ (List.mem_cons_self _ _) b rfl
                simp only [decide_eq_false hb, Bool.not_false,
                  Bool.true_or, Bool.true_and]
                exact ihe (fun e he bb hbb =>
                  hnolow e (List.mem_cons_of_mem _ he) bb hbb)
              · simp only [List.cons_append, lowBatteryFinal]
                exact ihe (fun e he bb hbb =>
                  hnolow e (List.mem_cons_of_mem _ he) bb hbb)
          · intro e he b hb hlow
            rcases List.mem_append.mp he with he | he
            · exact absurd hlow (hnolow e he b hb)
            · exact hrec.2.2.2 e he b hb hlow
        · -- suspended mid-segment
          have hres : runSegments cfg n speed estTime wps (fuel + 1) i d0
              db c t = ⟨rdb, revs, rc, rt, .stoppedNotActive⟩ := by
            simp only [runSegments, hlt', if_true, ite_true, hdb1, hdec,
              eq_self_iff_true, hr]
          rw [hres]
          refine ⟨key.1, key.2.1, key.2.2.1, ?_⟩
          intro e he b hb hlow
          have := (key.2.2.2 e he b hb hlow).1
          simp at this
        · -- aborted on low battery
          have hres : runSegments cfg n speed estTime wps (fuel + 1) i d0
              db c t = ⟨rdb, revs, rc, rt, .abortedLow⟩ := by
            simp only [runSegments, hlt', if_true, ite_true, hdb1, hdec,
              eq_self_iff_true, hr]
          rw [hres]
          refine ⟨key.1, key.2.1, key.2.2.1, ?_⟩
          intro e he b hb hlow
          exact ⟨rfl, (key.2.2.2 e he b hb hlow).2.1,
            (key.2.2.2 e he b hb hlow).2.2⟩
        · -- tick errored
          have hres : runSegments cfg n speed estTime wps (fuel + 1) i d0
              db c t = ⟨rdb, revs, rc, rt, .failed e⟩ := by
            simp only [runSegments, hlt', if_true, ite_true, hdb1, hdec,
              eq_self_iff_true, hr]
          rw [hres]
          refine ⟨key.1, key.2.1, key.2.2.1, ?_⟩
          intro e' he b hb hlow
          have := (key.2.2.2 e' he b hb hlow).1
          simp at this

/-- Claim C5 (confirmed): in any worker run — whatever the kernel distance
function and whatever concurrent status writes occur — every battery value
the engine emits lies in `[0, 100]` (given the drone starts in range);
and any emitted `drone:position` event whose battery is below the engine's
low threshold 10 is the run's last position event: the tick that produced
it aborted the mission (status `ABORTED`, drone released `AVAILABLE`)
before any further telemetry. -/
theorem c5_battery_bounds_and_low_abort (cfg : SimCfg) (db : Db)
    (d : DroneRec) (hd : db.drone = some d)
    (hb0 : 0 ≤ d.battery) (hb1 : d.battery ≤ 100) :
    (∀ e ∈ (processMission cfg db).evs, ∀ b, e.posBattery = some b →
      0 ≤ b ∧ b ≤ 100) ∧
    lowBatteryFinal (processMission cfg db).evs = true ∧
    (∀ e ∈ (processMission cfg db).evs, ∀ b, e.posBattery = some b →
      b < 10 →
      (processMission cfg db).exit = RunExit.abortedLow ∧
      (processMission cfg db).db.missionStatus =
        some MissionStatus.ABORTED ∧
      (processMission cfg db).db.droneStatus =
        some DroneStatus.AVAILABLE) := by
  have hOk : BatteryOk db := by
    intro d' hd'
    rw [hd] at hd'
    simp only [Option.some.injEq] at hd'
    subst hd'
    exact ⟨hb0, hb1⟩
  rcases hm : db.mission with _ | m
  · have hres : processMission cfg db =
        ⟨catchAbort db 0, [], 0, 0, .failed "Mission not found"⟩ := by
      simp only [processMission, hm]
    rw [hres]
    exact ⟨by simp, by simp [lowBatteryFinal], by simp⟩
  rcases hw : db.waypoints.isEmpty with _ | _
  case true =>
    have hres : processMission cfg db =
        ⟨catchAbort db 0, [], 0, 0, .failed "No waypoints found"⟩ := by
      simp only [processMission, hm, hw, if_true, ite_true]
    rw [hres]
    exact ⟨by simp, by simp [lowBatteryFinal], by simp⟩
  case false =>
    have key := runSegments_battery_low cfg db.waypoints.length m.speed
      m.estimatedTime db.waypoints (db.waypoints.length + 1)
      m.currentWaypoint m.distanceCovered db 0 0 hOk
    rcases hr : runSegments cfg db.waypoints.length m.speed
        m.estimatedTime db.waypoints (db.waypoints.length + 1)
        m.currentWaypoint m.distanceCovered db 0 0 with
      ⟨rdb, revs, rc, rt, rexit⟩
    rw [hr] at key
    simp only at key
    rcases rexit with _ | _ | _ | e | _
    case failed =>
      have hres : processMission cfg db =
          ⟨catchAbort rdb rt, revs, rc, rt, .failed e⟩ := by
        simp only [processMission, hm, hw, Bool.false_eq_true, if_false,
          ite_false, hd, hr]
      rw [hres]
      refine ⟨key.2.1, key.2.2.1, ?_⟩
      intro e' he b hb hlow
      have := (key.2.2.2 e' he b hb hlow).1
      simp at this
    case abortedLow =>
      have hres : processMission cfg db =
          ⟨rdb, revs, rc, rt, .abortedLow⟩ := by
        simp only [processMission, hm, hw, Bool.false_eq_true, if_false,
          ite_false, hd, hr]
      rw [hres]
      refine ⟨key.2.1, key.2.2.1, ?_⟩
      intro e' he b hb hlow
      exact ⟨rfl, (key.2.2.2 e' he b hb hlow).2.1,
        (key.2.2.2 e' he b hb hlow).2.2⟩
    case completed =>
      have hres : processMission cfg db =
          ⟨rdb, revs, rc, rt, .completed⟩ := by
        simp only [processMission, hm, hw, Bool.false_eq_true, if_false,
          ite_false, hd, hr]
      rw [hres]
      refine ⟨key.2.1, key.2.2.1, ?_⟩
      intro e' he b hb hlow
      have := (key.2.2.2 e' he b hb hlow).1
      simp at this
    case stoppedNotActive =>
      have hres : processMission cfg db =
          ⟨rdb, revs, rc, rt, .stoppedNotActive⟩ := by
        simp only [processMission, hm, hw, Bool.false_eq_true, if_false,
          ite_false, hd, hr]
      rw [hres]
      refine ⟨key.2.1, key.2.2.1, ?_⟩
      intro e' he b hb hlow
      have := (key.2.2.2 e' he b hb hlow).1
      simp at this
    case fuelOut =>
      have hres : processMission cfg db =
          ⟨rdb, revs, rc, rt, .fuelOut⟩ := by
        simp only [processMission, hm, hw, Bool.false_eq_true, if_false,
          ite_false, hd, hr]
      rw [hres]
      refine ⟨key.2.1, key.2.2.1, ?_⟩
      intro e' he b hb hlow
      have := (key.2.2.2 e' he b hb hlow).1
      simp at this

/-- Claim C5, witness: the concrete two-waypoint `ACTIVE` mission with a
full battery satisfies the hypotheses of the battery theorem. -/
theorem c5_witness :
    dbRun.drone = some droneFull ∧ 0 ≤ droneFull.battery ∧
    droneFull.battery ≤ 100 ∧
    ((∀ e ∈ (processMission cfgConst dbRun).evs, ∀ b,
        e.posBattery = some b → 0 ≤ b ∧ b ≤ 100) ∧
      lowBatteryFinal (processMission cfgConst dbRun).evs = true ∧
      (∀ e ∈ (processMission cfgConst dbRun).evs, ∀ b,
        e.posBattery = some b → b < 10 →
        (processMission cfgConst dbRun).exit = RunExit.abortedLow ∧
        (processMission cfgConst dbRun).db.missionStatus =
          some MissionStatus.ABORTED ∧
        (processMission cfgConst dbRun).db.droneStatus =
          some DroneStatus.AVAILABLE)) :=
  ⟨rfl, by norm_num [droneFull], by norm_num [droneFull],
    c5_battery_bounds_and_low_abort cfgConst dbRun droneFull rfl
      (by norm_num [droneFull]) (by norm_num [droneFull])⟩

/-- The paused run of `dbRun2`, computed tick by tick. -/
theorem run1_eval : processMission cfgPause dbRun2 =
    ⟨⟨some ⟨MissionStatus.PAUSED, 0, 10, 25, 10, 100, 0, none, none⟩,
      some ⟨DroneStatus.IN_MISSION, 499/5, 0, 1, 50⟩,
      [⟨0, 0, 50, false, none, 0⟩, ⟨0, 2, 50, false, none, 0⟩]⟩,
     [Ev.pos 0 0 50 (999/10) 10, Ev.prog 0 0 2 0 100,
      Ev.pos 0 1 50 (499/5) 10, Ev.prog 25 0 2 10 75],
     4, 2, RunExit.stoppedNotActive⟩ := by
  have hsc : segCtxOf cfgPause 2 10 100
      [⟨0, 0, 50, false, none, 0⟩, ⟨0, 2, 50, false, none, 0⟩] 0 0 =
      ⟨2, 0, 0, (0, 0, 50), (0, 2, 50), 20, 2, 10, 100⟩ := by
    norm_num [segCtxOf, cfgPause, distLat]
    decide
  have t0 : tickBody cfgPause
      ⟨2, 0, 0, (0, 0, 50), (0, 2, 50), 20, 2, 10, 100⟩ 0
      ⟨some ⟨MissionStatus.ACTIVE, 0, 0, 0, 10, 100, 0, none, none⟩,
       some ⟨DroneStatus.IN_MISSION, 100, 0, 0, 0⟩,
       [⟨0, 0, 50, false, none, 0⟩, ⟨0, 2, 50, false, none, 0⟩]⟩ 1 0 =
      ⟨⟨some ⟨MissionStatus.ACTIVE, 0, 0, 0, 10, 100, 0, none, none⟩,
        some ⟨DroneStatus.IN_MISSION, 999/10, 0, 0, 50⟩,
        [⟨0, 0, 50, false, none, 0⟩, ⟨0, 2, 50, false, none, 0⟩]⟩,
       [Ev.pos 0 0 50 (999/10) 10, Ev.prog 0 0 2 0 100], 2, 1,
       .cont⟩ := by
    have hb : tickBody cfgPause
        ⟨2, 0, 0, (0, 0, 50), (0, 2, 50), 20, 2, 10, 100⟩ 0
        ⟨some ⟨MissionStatus.ACTIVE, 0, 0, 0, 10, 100, 0, none, none⟩,
         some ⟨DroneStatus.IN_MISSION, 100, 0, 0, 0⟩,
         [⟨0, 0, 50, false, none, 0⟩, ⟨0, 2, 50, false, none, 0⟩]⟩ 1 0 =
        tickRest cfgPause
        ⟨2, 0, 0, (0, 0, 50), (0, 2, 50), 20, 2, 10, 100⟩ 0
        ⟨some ⟨MissionStatus.ACTIVE, 0, 0, 0, 10, 100, 0, none, none⟩,
         some ⟨DroneStatus.IN_MISSION, 100, 0, 0, 0⟩,
         [⟨0, 0, 50, false, none, 0⟩, ⟨0, 2, 50, false, none, 0⟩]⟩
        2 0 := rfl
    rw [hb, tickRest_eq_cont cfgPause _ 0
      ⟨MissionStatus.ACTIVE, 0, 0, 0, 10, 100, 0, none, none⟩
      ⟨DroneStatus.IN_MISSION, 100, 0, 0, 0⟩ _ 2 0 rfl
      (by norm_num [drainAt])]
    norm_num [progAt, segProgAt, dcAt, etaAt, tickPos, drainAt,
      interpolatePosition, cfgPause, distLat]
  have t1 : tickBody cfgPause
      ⟨2, 0, 0, (0, 0, 50), (0, 2, 50), 20, 2, 10, 100⟩ 1
      ⟨some ⟨MissionStatus.ACTIVE, 0, 0, 0, 10, 100, 0, none, none⟩,
       some ⟨DroneStatus.IN_MISSION, 999/10, 0, 0, 50⟩,
       [⟨0, 0, 50, false, none, 0⟩, ⟨0, 2, 50, false, none, 0⟩]⟩ 2 1 =
      ⟨⟨some ⟨MissionStatus.ACTIVE, 0, 10, 25, 10, 100, 0, none, none⟩,
        some ⟨DroneStatus.IN_MISSION, 499/5, 0, 1, 50⟩,
        [⟨0, 0, 50, false, none, 0⟩, ⟨0, 2, 50, false, none, 0⟩]⟩,
       [Ev.pos 0 1 50 (499/5) 10, Ev.prog 25 0 2 10 75], 3, 2,
       .cont⟩ := by
    have hb : tickBody cfgPause
        ⟨2, 0, 0, (0, 0, 50), (0, 2, 50), 20, 2, 10, 100⟩ 1
        ⟨some ⟨MissionStatus.ACTIVE, 0, 0, 0, 10, 100, 0, none, none⟩,
         some ⟨DroneStatus.IN_MISSION, 999/10, 0, 0, 50⟩,
         [⟨0, 0, 50, false, none, 0⟩, ⟨0, 2, 50, false, none, 0⟩]⟩ 2 1 =
        tickRest cfgPause
        ⟨2, 0, 0, (0, 0, 50), (0, 2, 50), 20, 2, 10, 100⟩ 1
        ⟨some ⟨MissionStatus.ACTIVE, 0, 0, 0, 10, 100, 0, none, none⟩,
         some ⟨DroneStatus.IN_MISSION, 999/10, 0, 0, 50⟩,
         [⟨0, 0, 50, false, none, 0⟩, ⟨0, 2, 50, false, none, 0⟩]⟩
        3 1 := rfl
    rw [hb, tickRest_eq_cont cfgPause _ 1
      ⟨MissionStatus.ACTIVE, 0, 0, 0, 10, 100, 0, none, none⟩
      ⟨DroneStatus.IN_MISSION, 999/10, 0, 0, 50⟩ _ 3 1 rfl
      (by norm_num [drainAt])]
    norm_num [progAt, segProgAt, dcAt, etaAt, tickPos, drainAt,
      interpolatePosition, cfgPause, distLat]
  have t2 : tickBody cfgPause
      ⟨2, 0, 0, (0, 0, 50), (0, 2, 50), 20, 2, 10, 100⟩ 2
      ⟨some ⟨MissionStatus.ACTIVE, 0, 10, 25, 10, 100, 0, none, none⟩,
       some ⟨DroneStatus.IN_MISSION, 499/5, 0, 1, 50⟩,
       [⟨0, 0, 50, false, none, 0⟩, ⟨0, 2, 50, false, none, 0⟩]⟩ 3 2 =
      ⟨⟨some ⟨MissionStatus.PAUSED, 0, 10, 25, 10, 100, 0, none, none⟩,
        some ⟨DroneStatus.IN_MISSION, 499/5, 0, 1, 50⟩,
        [⟨0, 0, 50, false, none, 0⟩, ⟨0, 2, 50, false, none, 0⟩]⟩,
       [], 4, 2, .stopNotActive⟩ := by
    have ha : applyExt cfgPause 3
        ⟨some ⟨MissionStatus.ACTIVE, 0, 10, 25, 10, 100, 0, none, none⟩,
         some ⟨DroneStatus.IN_MISSION, 499/5, 0, 1, 50⟩,
         [⟨0, 0, 50, false, none, 0⟩, ⟨0, 2, 50, false, none, 0⟩]⟩ =
        ⟨some ⟨MissionStatus.PAUSED, 0, 10, 25, 10, 100, 0, none, none⟩,
         some ⟨DroneStatus.IN_MISSION, 499/5, 0, 1, 50⟩,
         [⟨0, 0, 50, false, none, 0⟩, ⟨0, 2, 50, false, none, 0⟩]⟩ :=
      rfl
    have hb : tickBody cfgPause
        ⟨2, 0, 0, (0, 0, 50), (0, 2, 50), 20, 2, 10, 100⟩ 2
        ⟨some ⟨MissionStatus.ACTIVE, 0, 10, 25, 10, 100, 0, none, none⟩,
         some ⟨DroneStatus.IN_MISSION, 499/5, 0, 1, 50⟩,
         [⟨0, 0, 50, false, none, 0⟩, ⟨0, 2, 50, false, none, 0⟩]⟩ 3 2 =
        tickRest cfgPause
        ⟨2, 0, 0, (0, 0, 50), (0, 2, 50), 20, 2, 10, 100⟩ 2
        (applyExt cfgPause 3
          ⟨some ⟨MissionStatus.ACTIVE, 0, 10, 25, 10, 100, 0, none,
            none⟩,
           some ⟨DroneStatus.IN_MISSION, 499/5, 0, 1, 50⟩,
           [⟨0, 0, 50, false, none, 0⟩, ⟨0, 2, 50, false, none, 0⟩]⟩)
        4 2 := rfl
    rw [hb, ha, tickRest_eq_notActive]
    intro m hm
    simp only [Option.some.injEq] at hm
    subst hm
    decide
  have hrs : runSteps cfgPause
      ⟨2, 0, 0, (0, 0, 50), (0, 2, 50), 20, 2, 10, 100⟩ 3 0
      ⟨some ⟨MissionStatus.ACTIVE, 0, 0, 0, 10, 100, 0, none, none⟩,
       some ⟨DroneStatus.IN_MISSION, 100, 0, 0, 0⟩,
       [⟨0, 0, 50, false, none, 0⟩, ⟨0, 2, 50, false, none, 0⟩]⟩ 1 0 =
      ⟨⟨some ⟨MissionStatus.PAUSED, 0, 10, 25, 10, 100, 0, none, none⟩,
        some ⟨DroneStatus.IN_MISSION, 499/5, 0, 1, 50⟩,
        [⟨0, 0, 50, false, none, 0⟩, ⟨0, 2, 50, false, none, 0⟩]⟩,
       [Ev.pos 0 0 50 (999/10) 10, Ev.prog 0 0 2 0 100,
        Ev.pos 0 1 50 (499/5) 10, Ev.prog 25 0 2 10 75],
       4, 2, .notActive⟩ := by
    norm_num [runSteps, t0, t1, t2]
  norm_num [processMission, runSegments, applyExt,
    show cfgPause.ext 0 = none from rfl, dbRun2, missionActive,
    missionPlanned, droneFull, wp0, wpB, hsc, hrs]

set_option maxHeartbeats 1600000 in
/-- Claim C2, counterexample: a mission over one 20 m segment is paused by
a concurrent request after the tick that persisted progress 25 (and
distanceCovered 10); after `resumeMission`, the restarted worker re-reads
`currentWaypoint = 0` and re-runs the whole segment: its first tick
persists progress 0 — a drop from 25 — and the re-run re-accumulates the
already-counted half segment, ending with `distanceCovered = 30` although
the entire path is only 20 m long. -/
theorem c2_cex_pause_resume_drops_progress :
    progressValues (processMission cfgPause dbRun2).evs = [0, 25] ∧
    (processMission cfgPause dbRun2).db.mission =
      some ⟨MissionStatus.PAUSED, 0, 10, 25, 10, 100, 0, none, none⟩ ∧
    resumeMission (processMission cfgPause dbRun2).db = .ok dbResumed ∧
    progressValues (processMission cfgLat dbResumed).evs = [0, 25, 50] ∧
    (processMission cfgLat dbResumed).db.mission =
      some ⟨MissionStatus.COMPLETED, 0, 30, 100, 10, 100, 0, none,
        some 3⟩ ∧
    distLat (wp0.longitude, wp0.latitude) (wpB.longitude, wpB.latitude) =
      20 ∧
    (0 : ℚ) < 25 ∧ (20 : ℚ) < 30 := by
  have h1 := run1_eval
  have h3 : resumeMission (processMission cfgPause dbRun2).db =
      .ok (⟨some ⟨MissionStatus.ACTIVE, 0, 10, 25, 10, 100, 0, none,
          none⟩,
        some ⟨DroneStatus.IN_MISSION, 499/5, 0, 1, 50⟩,
        [⟨0, 0, 50, false, none, 0⟩, ⟨0, 2, 50, false, none, 0⟩]⟩ :
          Db) := by
    rw [h1]
    norm_num [resumeMission]
  have h2 : dbResumed =
      ⟨some ⟨MissionStatus.ACTIVE, 0, 10, 25, 10, 100, 0, none, none⟩,
        some ⟨DroneStatus.IN_MISSION, 499/5, 0, 1, 50⟩,
        [⟨0, 0, 50, false, none, 0⟩, ⟨0, 2, 50, false, none, 0⟩]⟩ := by
    unfold dbResumed
    rw [h3]
  have h4 : processMission cfgLat dbResumed =
      ⟨⟨some ⟨MissionStatus.COMPLETED, 0, 30, 100, 10, 100, 0, none,
          some 3⟩,
        some ⟨DroneStatus.AVAILABLE, 199/2, 0, 2, 50⟩,
        [⟨0, 0, 50, false, none, 0⟩, ⟨0, 2, 50, true, some 3, 1⟩]⟩,
       [Ev.pos 0 0 50 (997/10) 10, Ev.prog 0 0 2 10 100,
        Ev.pos 0 1 50 (498/5) 10, Ev.prog 25 0 2 20 75,
        Ev.pos 0 2 50 (199/2) 10, Ev.prog 50 0 2 30 50],
       4, 3, RunExit.completed⟩ := by
    rw [h2]
    norm_num [processMission, runSegments, runSteps, tickBody, tickRest,
      applyExt, segCtxOf, progressPersist, fleetUpdateDronePosition,
      fleetUpdateDroneBattery, fleetUpdateDroneStatus,
      updateMissionProgress, completeMission, abortMission, markWaypoint,
      interpolatePosition, catchAbort, cfgLat, distLat,
      show Int.toNat 2 = 2 from rfl, Except.instMonad, Bind.bind,
      Except.bind]
  refine ⟨?_, ?_, ?_, ?_, ?_, by norm_num [distLat, wp0, wpB],
    by norm_num, by norm_num⟩
  · rw [h1]
    simp [progressValues, Ev.progOf]
  · rw [h1]
  · rw [h2]
    exact h3
  · rw [h4]
    simp [progressValues, Ev.progOf]
  · rw [h4]

set_option maxHeartbeats 1600000 in
/-- The uninterrupted two-waypoint run of `dbRun` under the latitude
kernel, fully evaluated: it completes normally, waypoint 1 is marked
once, waypoint 0 is left untouched. -/
theorem run0_eval : processMission cfgLat dbRun =
    ⟨⟨some ⟨MissionStatus.COMPLETED, 0, 10, 100, 10, 100, 0, none,
        some 2⟩,
      some ⟨DroneStatus.AVAILABLE, 499/5, 0, 1, 50⟩,
      [⟨0, 0, 50, false, none, 0⟩, ⟨0, 1, 50, true, some 2, 1⟩]⟩,
     [Ev.pos 0 0 50 (999/10) 10, Ev.prog 0 0 2 0 100,
      Ev.pos 0 1 50 (499/5) 10, Ev.prog 50 0 2 10 50],
     3, 2, RunExit.completed⟩ := by
  norm_num [processMission, runSegments, runSteps, tickBody, tickRest,
    applyExt, segCtxOf, progressPersist, fleetUpdateDronePosition,
    fleetUpdateDroneBattery, fleetUpdateDroneStatus,
    updateMissionProgress, completeMission, abortMission, markWaypoint,
    interpolatePosition, catchAbort, cfgLat, distLat, dbRun,
    missionActive, missionPlanned, droneFull, wp0, wp1,
    Int.toNat_ofNat, Except.instMonad, Bind.bind, Except.bind]

/-- Claim C8 (corrected, counterexample part): the uninterrupted
two-waypoint run completes, yet the first waypoint's row still has
`reached = false`: the engine never marks waypoint 0. -/
theorem c8_cex_first_waypoint_never_marked :
    (processMission cfgLat dbRun).exit = RunExit.completed ∧
    (processMission cfgLat dbRun).db.missionStatus =
      some MissionStatus.COMPLETED ∧
    (processMission cfgLat dbRun).db.waypoints =
      [⟨0, 0, 50, false, none, 0⟩, ⟨0, 1, 50, true, some 2, 1⟩] :=
  ⟨by rw [run0_eval], by rw [run0_eval]; rfl, by rw [run0_eval]⟩

/-! ### Progress monotonicity within a run (claim C2, amended part) -/

theorem progressValues_append (l1 l2 : List Ev) :
    progressValues (l1 ++ l2) = progressValues l1 ++ progressValues l2 := by
  simp [progressValues]

theorem interpolatePosition_at_zero (f t : ℚ × ℚ × ℚ) :
    interpolatePosition f t 0 = f := by
  rcases f with ⟨a, b, c⟩
  simp only [interpolatePosition]
  norm_num

theorem div_mono_same (a b c : ℚ) (hab : a ≤ b) (hc : 0 ≤ c) :
    a / c ≤ b / c := by
  rcases eq_or_lt_of_le hc with hc0 | hc0
  · rw [← hc0, div_zero, div_zero]
  · rw [div_le_div_iff₀ hc0 hc0]
    exact mul_le_mul_of_nonneg_right hab hc0.le

theorem div_mul_mono (a b c : ℚ) (hab : a ≤ b) (hc : 0 ≤ c) :
    a / c * 100 ≤ b / c * 100 := by
  have := div_mono_same a b c hab hc
  linarith

theorem stepFrac_nonneg (sc : SegCtx) (s : ℕ) :
    (0 : ℚ) ≤ (s : ℚ) / (sc.steps : ℚ) :=
  div_nonneg (Nat.cast_nonneg _) (Nat.cast_nonneg _)

theorem stepFrac_le_one (sc : SegCtx) (s : ℕ) (hs : s ≤ sc.steps) :
    (s : ℚ) / (sc.steps : ℚ) ≤ 1 := by
  rcases Nat.eq_zero_or_pos sc.steps with h0 | hstp
  · rw [h0]
    norm_num
  · have hq : (0 : ℚ) < (sc.steps : ℚ) := by exact_mod_cast hstp
    rw [div_le_one hq]
    exact_mod_cast hs

theorem stepFrac_mono (sc : SegCtx) (s s' : ℕ) (hss : s ≤ s') :
    (s : ℚ) / (sc.steps : ℚ) ≤ (s' : ℚ) / (sc.steps : ℚ) := by
  have : (s : ℚ) ≤ (s' : ℚ) := by exact_mod_cast hss
  exact div_mono_same _ _ _ this (Nat.cast_nonneg _)

theorem segProgAt_nonneg (cfg : SimCfg) (sc : SegCtx) (hd : DistMono cfg)
    (hsd : sc.segDist =
      cfg.dist (sc.fromW.1, sc.fromW.2.1) (sc.toW.1, sc.toW.2.1))
    (s : ℕ) (hs : s ≤ sc.steps) : 0 ≤ segProgAt cfg sc s := by
  obtain ⟨H0, H1⟩ := hd
  have hsd0 : 0 ≤ sc.segDist := hsd ▸ H0 _ _
  rcases eq_or_lt_of_le hsd0 with hz | hpos
  · simp only [segProgAt, ← hz, div_zero, sub_zero]
    norm_num
  · have hmono := H1 sc.fromW sc.toW 0 ((s : ℚ) / (sc.steps : ℚ))
      le_rfl (stepFrac_nonneg sc s) (stepFrac_le_one sc s hs)
    rw [interpolatePosition_at_zero, ← hsd] at hmono
    have hd1 : cfg.dist ((tickPos sc s).1, (tickPos sc s).2.1)
        (sc.toW.1, sc.toW.2.1) / sc.segDist ≤ 1 := by
      rw [← div_self (ne_of_gt hpos)]
      exact div_mono_same _ _ _ hmono hsd0
    unfold segProgAt
    linarith

theorem segProgAt_le_one (cfg : SimCfg) (sc : SegCtx) (hd : DistMono cfg)
    (hsd : sc.segDist =
      cfg.dist (sc.fromW.1, sc.fromW.2.1) (sc.toW.1, sc.toW.2.1))
    (s : ℕ) : segProgAt cfg sc s ≤ 1 := by
  obtain ⟨H0, _⟩ := hd
  have hsd0 : 0 ≤ sc.segDist := hsd ▸ H0 _ _
  have hnum : (0 : ℚ) ≤ cfg.dist ((tickPos sc s).1, (tickPos sc s).2.1)
      (sc.toW.1, sc.toW.2.1) := H0 _ _
  have hq := div_nonneg hnum hsd0
  unfold segProgAt
  linarith

theorem segProgAt_mono (cfg : SimCfg) (sc : SegCtx) (hd : DistMono cfg)
    (hsd : sc.segDist =
      cfg.dist (sc.fromW.1, sc.fromW.2.1) (sc.toW.1, sc.toW.2.1))
    (s s' : ℕ) (hss : s ≤ s') (hs' : s' ≤ sc.steps) :
    segProgAt cfg sc s ≤ segProgAt cfg sc s' := by
  obtain ⟨H0, H1⟩ := hd
  have hsd0 : 0 ≤ sc.segDist := hsd ▸ H0 _ _
  have hmono := H1 sc.fromW sc.toW ((s : ℚ) / (sc.steps : ℚ))
    ((s' : ℚ) / (sc.steps : ℚ)) (stepFrac_nonneg sc s)
    (stepFrac_mono sc s s' hss) (stepFrac_le_one sc s' hs')
  have hdiv := div_mono_same _ _ sc.segDist hmono hsd0
  unfold segProgAt tickPos
  linarith

theorem progAt_mono (cfg : SimCfg) (sc : SegCtx) (hd : DistMono cfg)
    (hsd : sc.segDist =
      cfg.dist (sc.fromW.1, sc.fromW.2.1) (sc.toW.1, sc.toW.2.1))
    (s s' : ℕ) (hss : s ≤ s') (hs' : s' ≤ sc.steps) :
    progAt cfg sc s ≤ progAt cfg sc s' := by
  have h := segProgAt_mono cfg sc ⟨hd.1, hd.2⟩ hsd s s' hss hs'
  unfold progAt
  exact div_mul_mono _ _ _ (by linarith) (Nat.cast_nonneg _)

theorem progAt_lb (cfg : SimCfg) (sc : SegCtx) (hd : DistMono cfg)
    (hsd : sc.segDist =
      cfg.dist (sc.fromW.1, sc.fromW.2.1) (sc.toW.1, sc.toW.2.1))
    (s : ℕ) (hs : s ≤ sc.steps) :
    (sc.i : ℚ) / (sc.n : ℚ) * 100 ≤ progAt cfg sc s := by
  have h := segProgAt_nonneg cfg sc hd hsd s hs
  unfold progAt
  exact div_mul_mono _ _ _ (by linarith) (Nat.cast_nonneg _)

theorem progAt_ub (cfg : SimCfg) (sc : SegCtx) (hd : DistMono cfg)
    (hsd : sc.segDist =
      cfg.dist (sc.fromW.1, sc.fromW.2.1) (sc.toW.1, sc.toW.2.1))
    (s : ℕ) : progAt cfg sc s ≤ ((sc.i : ℚ) + 1) / (sc.n : ℚ) * 100 := by
  have h := segProgAt_le_one cfg sc hd hsd s
  unfold progAt
  exact div_mul_mono _ _ _ (by linarith) (Nat.cast_nonneg _)

theorem runSteps_prog_trace (cfg : SimCfg) (sc : SegCtx) (count : ℕ) :
    ∀ (s : ℕ) (db : Db) (c t : ℕ), ∃ k, k ≤ count ∧
      progressValues (runSteps cfg sc count s db c t).evs =
        (List.range' s k).map (progAt cfg sc) := by
  induction count with
  | zero =>
    intro s db c t
    exact ⟨0, le_refl 0, rfl⟩
  | succ k ih =>
    intro s db c t
    rcases tickBody_shape cfg sc s db c t with ⟨hne, heq⟩ |
      ⟨hd1, hd0, heq⟩ |
      ⟨m, d, hm, hst, hdx, ⟨hnb, heq⟩ | ⟨hnb, heq⟩⟩
    · have hres : runSteps cfg sc (k + 1) s db c t =
          ⟨applyExt cfg c db, [], c + 1, t, .notActive⟩ := by
        simp only [runSteps, heq]
      exact ⟨0, Nat.zero_le _, by rw [hres]
                                  rfl⟩
    · have hres : runSteps cfg sc (k + 1) s db c t =
          ⟨applyExt cfg c db, [], c + 1, t,
           .err "Record to update not found"⟩ := by
        simp only [runSteps, heq]
      exact ⟨0, Nat.zero_le _, by rw [hres]
                                  rfl⟩
    · have hres : (runSteps cfg sc (k + 1) s db c t).evs =
          [Ev.pos (tickPos sc s).1 (tickPos sc s).2.1 (tickPos sc s).2.2
            (drainAt d.battery) sc.speed] := by
        simp only [runSteps, heq]
      refine ⟨0, Nat.zero_le _, ?_⟩
      rw [hres]
      rfl
    · obtain ⟨k', hk', hpv⟩ := ih (s + 1)
        ⟨some { m with
                progress := progAt cfg sc s,
                currentWaypoint := sc.i,
                distanceCovered := dcAt cfg sc s },
         some ⟨if drainAt d.battery < 20 then DroneStatus.CHARGING
               else d.status,
               drainAt d.battery, (tickPos sc s).1, (tickPos sc s).2.1,
               (tickPos sc s).2.2⟩,
         db.waypoints⟩ (c + 1) (t + 1)
      have hres : (runSteps cfg sc (k + 1) s db c t).evs =
          [Ev.pos (tickPos sc s).1 (tickPos sc s).2.1 (tickPos sc s).2.2
             (drainAt d.battery) sc.speed,
           Ev.prog (progAt cfg sc s) sc.i sc.n (dcAt cfg sc s)
             (etaAt cfg sc s)] ++
          (runSteps cfg sc k (s + 1)
            ⟨some { m with
                    progress := progAt cfg sc s,
                    currentWaypoint := sc.i,
                    distanceCovered := dcAt cfg sc s },
             some ⟨if drainAt d.battery < 20 then DroneStatus.CHARGING
                   else d.status,
                   drainAt d.battery, (tickPos sc s).1, (tickPos sc s).2.1,
                   (tickPos sc s).2.2⟩,
             db.waypoints⟩ (c + 1) (t + 1)).evs := by
        simp only [runSteps, heq]
      refine ⟨k' + 1, Nat.succ_le_succ hk', ?_⟩
      rw [hres, progressValues_append, hpv]
      rfl

theorem range'_progAt_sorted (cfg : SimCfg) (sc : SegCtx)
    (hd : DistMono cfg)
    (hsd : sc.segDist =
      cfg.dist (sc.fromW.1, sc.fromW.2.1) (sc.toW.1, sc.toW.2.1))
    (k : ℕ) :
    ∀ s : ℕ, s + k ≤ sc.steps + 1 →
      List.Pairwise (· ≤ ·) ((List.range' s k).map (progAt cfg sc)) := by
  induction k with
  | zero =>
    intro s hs
    exact List.Pairwise.nil
  | succ k ih =>
    intro s hs
    rw [show List.range' s (k + 1) = s :: List.range' (s + 1) k from rfl,
        List.map_cons]
    refine List.Pairwise.cons ?_ (ih (s + 1) (by omega))
    intro v hv
    simp only [List.mem_map] at hv
    obtain ⟨j, hj, rfl⟩ := hv
    rw [List.mem_range'_1] at hj
    exact progAt_mono cfg sc hd hsd s j (by omega) (by omega)

theorem range'_progAt_bounds (cfg : SimCfg) (sc : SegCtx)
    (hd : DistMono cfg)
    (hsd : sc.segDist =
      cfg.dist (sc.fromW.1, sc.fromW.2.1) (sc.toW.1, sc.toW.2.1))
    (k s : ℕ) (hs : s + k ≤ sc.steps + 1) :
    ∀ v ∈ (List.range' s k).map (progAt cfg sc),
      (sc.i : ℚ) / (sc.n : ℚ) * 100 ≤ v ∧
      v ≤ ((sc.i : ℚ) + 1) / (sc.n : ℚ) * 100 := by
  intro v hv
  simp only [List.mem_map] at hv
  obtain ⟨j, hj, rfl⟩ := hv
  rw [List.mem_range'_1] at hj
  have hj' : j ≤ sc.steps := by omega
  exact ⟨progAt_lb cfg sc hd hsd j hj', progAt_ub cfg sc hd hsd j⟩

theorem runSteps_prog_sorted (cfg : SimCfg) (sc : SegCtx)
    (hd : DistMono cfg)
    (hsd : sc.segDist =
      cfg.dist (sc.fromW.1, sc.fromW.2.1) (sc.toW.1, sc.toW.2.1))
    (db : Db) (c t : ℕ) :
    List.Pairwise (· ≤ ·)
      (progressValues (runSteps cfg sc (sc.steps + 1) 0 db c t).evs) ∧
    ∀ v ∈ progressValues (runSteps cfg sc (sc.steps + 1) 0 db c t).evs,
      (sc.i : ℚ) / (sc.n : ℚ) * 100 ≤ v ∧
      v ≤ ((sc.i : ℚ) + 1) / (sc.n : ℚ) * 100 := by
  obtain ⟨k, hk, hpv⟩ := runSteps_prog_trace cfg sc (sc.steps + 1) 0 db c t
  rw [hpv]
  exact ⟨range'_progAt_sorted cfg sc hd hsd k 0 (by omega),
    range'_progAt_bounds cfg sc hd hsd k 0 (by omega)⟩

theorem runSegments_prog (cfg : SimCfg) (n : ℕ) (speed estTime : ℚ)
    (wps : List Waypoint) (hd : DistMono cfg) (fuel : ℕ) :
    ∀ (i : ℕ) (d0 : ℚ) (db : Db) (c t : ℕ),
      List.Pairwise (· ≤ ·)
        (progressValues
          (runSegments cfg n speed estTime wps fuel i d0 db c t).evs) ∧
      ∀ v ∈ progressValues
          (runSegments cfg n speed estTime wps fuel i d0 db c t).evs,
        (i : ℚ) / (n : ℚ) * 100 ≤ v := by
  induction fuel with
  | zero =>
    intro i d0 db c t
    exact ⟨List.Pairwise.nil,
      fun v hv => absurd hv (List.not_mem_nil v)⟩
  | succ fuel ih =>
    intro i d0 db c t
    by_cases hlt : i + 1 < n
    case neg =>
      have hlt' : (i + 1 < n) = False := eq_false hlt
      rcases hc : completeMission db t with e | db2
      · have hres : (runSegments cfg n speed estTime wps (fuel + 1) i d0
            db c t).evs = [] := by
          simp only [runSegments, hlt', if_false, ite_false, hc]
        rw [hres]
        exact ⟨List.Pairwise.nil,
          fun v hv => absurd hv (List.not_mem_nil v)⟩
      · have hres : (runSegments cfg n speed estTime wps (fuel + 1) i d0
            db c t).evs = [] := by
          simp only [runSegments, hlt', if_false, ite_false, hc]
        rw [hres]
        exact ⟨List.Pairwise.nil,
          fun v hv => absurd hv (List.not_mem_nil v)⟩
    case pos =>
      have hlt' : (i + 1 < n) = True := eq_true hlt
      have hdro := applyExt_drone cfg c db
      have hwp := applyExt_waypoints cfg c db
      rcases hdb1 : applyExt cfg c db with ⟨mo, dro, w⟩
      rw [hdb1] at hdro hwp
      simp only at hdro hwp
      subst hdro
      subst hwp
      by_cases hact : ∃ m, mo = some m ∧ m.status = MissionStatus.ACTIVE
      case neg =>
        have hcont : (match (⟨mo, db.drone, db.waypoints⟩ : Db).mission with
            | some m => decide (m.status = MissionStatus.ACTIVE)
            | none => false) = false := by
          rcases mo with _ | m
          · rfl
          · simp only
            simp only [decide_eq_false_iff_not]
            intro hst
            exact hact ⟨m, rfl, hst⟩
        rcases hc : completeMission (⟨mo, db.drone, db.waypoints⟩ : Db) t
          with e | db2
        · have hres : (runSegments cfg n speed estTime wps (fuel + 1) i d0
              db c t).evs = [] := by
            simp only [runSegments, hlt', if_true, ite_true, hdb1, hcont,
              Bool.false_eq_true, if_false, ite_false, hc]
          rw [hres]
          exact ⟨List.Pairwise.nil,
            fun v hv => absurd hv (List.not_mem_nil v)⟩
        · have hres : (runSegments cfg n speed estTime wps (fuel + 1) i d0
              db c t).evs = [] := by
            simp only [runSegments, hlt', if_true, ite_true, hdb1, hcont,
              Bool.false_eq_true, if_false, ite_false, hc]
          rw [hres]
          exact ⟨List.Pairwise.nil,
            fun v hv => absurd hv (List.not_mem_nil v)⟩
      case pos =>
        obtain ⟨m, rfl, hst⟩ := hact
        have hdec : decide (m.status = MissionStatus.ACTIVE) = true := by
          simp [hst]
        have key := runSteps_prog_sorted cfg
          (segCtxOf cfg n speed estTime wps i d0) hd rfl
          ⟨some m, db.drone, db.waypoints⟩ (c + 1) t
        have hsci : (segCtxOf cfg n speed estTime wps i d0).i = i := rfl
        have hscn : (segCtxOf cfg n speed estTime wps i d0).n = n := rfl
        rw [hsci, hscn] at key
        rcases hr : runSteps cfg (segCtxOf cfg n speed estTime wps i d0)
            ((segCtxOf cfg n speed estTime wps i d0).steps + 1) 0
            ⟨some m, db.drone, db.waypoints⟩ (c + 1) t with
          ⟨rdb, revs, rc, rt, rexit⟩
        rw [hr] at key
        simp only at key
        have hwin : (i : ℚ) / (n : ℚ) * 100 ≤
            ((i : ℚ) + 1) / (n : ℚ) * 100 :=
          div_mul_mono _ _ _ (by linarith) (Nat.cast_nonneg _)
        rcases rexit with _ | _ | _ | e
        · -- segment finished: recurse
          have hrec := ih (i + 1)
            (d0 + (segCtxOf cfg n speed estTime wps i d0).segDist)
            { rdb with waypoints := markWaypoint rdb.waypoints (i + 1) rt }
            rc rt
          have hcast : (((i + 1 : ℕ)) : ℚ) = (i : ℚ) + 1 := by
            push_cast
            ring
          rw [hcast] at hrec
          have hres : (runSegments cfg n speed estTime wps (fuel + 1) i d0
              db c t).evs =
              revs ++ (runSegments cfg n speed estTime wps fuel (i + 1)
                (d0 + (segCtxOf cfg n speed estTime wps i d0).segDist)
                { rdb with
                  waypoints := markWaypoint rdb.waypoints (i + 1) rt }
                rc rt).evs := by
            simp only [runSegments, hlt', if_true, ite_true, hdb1, hdec,
              eq_self_iff_true, hr]
          rw [hres, progressValues_append]
          constructor
          · rw [List.pairwise_append]
            refine ⟨key.1, hrec.1, ?_⟩
            intro a ha b hb
            have hub := (key.2 a ha).2
            have hlb := hrec.2 b hb
            linarith
          · intro v hv
            rcases List.mem_append.mp hv with hv | hv
            · exact (key.2 v hv).1
            · have hlb := hrec.2 v hv
              linarith
        · have hres : (runSegments cfg n speed estTime wps (fuel + 1) i d0
              db c t).evs = revs := by
            simp only [runSegments, hlt', if_true, ite_true, hdb1, hdec,
              eq_self_iff_true, hr]
          rw [hres]
          exact ⟨key.1, fun v hv => (key.2 v hv).1⟩
        · have hres : (runSegments cfg n speed estTime wps (fuel + 1) i d0
              db c t).evs = revs := by
            simp only [runSegments, hlt', if_true, ite_true, hdb1, hdec,
              eq_self_iff_true, hr]
          rw [hres]
          exact ⟨key.1, fun v hv => (key.2 v hv).1⟩
        · have hres : (runSegments cfg n speed estTime wps (fuel + 1) i d0
              db c t).evs = revs := by
            simp only [runSegments, hlt', if_true, ite_true, hdb1, hdec,
              eq_self_iff_true, hr]
          rw [hres]
          exact ⟨key.1, fun v hv => (key.2 v hv).1⟩

/-- Claim C2 (corrected): within a single worker run — for any kernel
distance that is nonnegative and non-increasing toward the segment end
along the interpolated path, and whatever concurrent status writes
occur — the emitted/persisted progress values are monotonically
non-decreasing.  (The spec's unconditional monotonicity claim fails
across a pause/resume: see the counterexample.) -/
theorem c2_amended_progress_monotone (cfg : SimCfg) (db : Db)
    (hd : DistMono cfg) :
    List.Pairwise (· ≤ ·) (progressValues (processMission cfg db).evs) := by
  rcases hm : db.mission with _ | m
  · have hres : (processMission cfg db).evs = [] := by
      simp only [processMission, hm]
    rw [hres]
    exact List.Pairwise.nil
  rcases hw : db.waypoints.isEmpty with _ | _
  case true =>
    have hres : (processMission cfg db).evs = [] := by
      simp only [processMission, hm, hw, if_true, ite_true]
    rw [hres]
    exact List.Pairwise.nil
  case false =>
    rcases hdro : db.drone with _ | d
    · have hres : (processMission cfg db).evs = [] := by
        simp only [processMission, hm, hw, Bool.false_eq_true, if_false,
          ite_false, hdro]
      rw [hres]
      exact List.Pairwise.nil
    · have key := runSegments_prog cfg db.waypoints.length m.speed
        m.estimatedTime db.waypoints hd (db.waypoints.length + 1)
        m.currentWaypoint m.distanceCovered db 0 0
      rcases hr : runSegments cfg db.waypoints.length m.speed
          m.estimatedTime db.waypoints (db.waypoints.length + 1)
          m.currentWaypoint m.distanceCovered db 0 0 with
        ⟨rdb, revs, rc, rt, rexit⟩
      rw [hr] at key
      simp only at key
      rcases rexit with _ | _ | _ | e | _
      all_goals
        have hres : (processMission cfg db).evs = revs := by
          simp only [processMission, hm, hw, Bool.false_eq_true, if_false,
            ite_false, hdro, hr]
      all_goals rw [hres]
      all_goals exact key.1

theorem distLat_interp (a b : ℚ × ℚ × ℚ) (r : ℚ) :
    distLat ((interpolatePosition a b r).1, (interpolatePosition a b r).2.1)
      (b.1, b.2.1) = 10 * |(b.2.1 - a.2.1) * (1 - r)| := by
  simp only [distLat, interpolatePosition]
  rw [show b.2.1 - (a.2.1 + (b.2.1 - a.2.1) * r) =
    (b.2.1 - a.2.1) * (1 - r) from by ring]

theorem distMono_cfgLat : DistMono cfgLat := by
  constructor
  · intro x y
    exact mul_nonneg (by norm_num) (abs_nonneg _)
  · intro a b p q hp hpq hq1
    rw [show cfgLat.dist = distLat from rfl, distLat_interp a b q,
      distLat_interp a b p, abs_mul, abs_mul]
    have h1 : |1 - q| ≤ |1 - p| := by
      rw [abs_of_nonneg (by linarith : (0 : ℚ) ≤ 1 - q),
          abs_of_nonneg (by linarith : (0 : ℚ) ≤ 1 - p)]
      linarith
    have h2 : |b.2.1 - a.2.1| * |1 - q| ≤ |b.2.1 - a.2.1| * |1 - p| :=
      mul_le_mul_of_nonneg_left h1 (abs_nonneg _)
    linarith

/-- Claim C2, witness for the amended monotonicity: the latitude-distance
kernel satisfies the monotone-distance hypotheses, so the concrete
two-waypoint run's progress trace is sorted. -/
theorem c2_amended_witness : DistMono cfgLat ∧
    List.Pairwise (· ≤ ·)
      (progressValues (processMission cfgLat dbRun).evs) :=
  ⟨distMono_cfgLat,
   c2_amended_progress_monotone cfgLat dbRun distMono_cfgLat⟩

/-! ### Waypoint marking discipline (claim C8, amended part) -/

theorem markWaypoint_length (l : List Waypoint) (j t : ℕ) :
    (markWaypoint l j t).length = l.length := by
  simp [markWaypoint]

theorem markWaypoint_getD_self (l : List Waypoint) (j t : ℕ)
    (hj : j < l.length) :
    (markWaypoint l j t).getD j default =
      ⟨(l.getD j default).longitude, (l.getD j default).latitude,
       (l.getD j default).altitude, true, some t,
       (l.getD j default).timesMarked + 1⟩ := by
  unfold markWaypoint
  simp only [List.getD_eq_getElem?_getD, List.getElem?_set_self hj,
    Option.getD_some]

theorem markWaypoint_getD_ne (l : List Waypoint) (j t j' : ℕ)
    (h : j ≠ j') :
    (markWaypoint l j t).getD j' default = l.getD j' default := by
  unfold markWaypoint
  simp only [List.getD_eq_getElem?_getD, List.getElem?_set_ne h]

theorem runSteps_inv (cfg : SimCfg) (sc : SegCtx)
    (hext : ∀ c, cfg.ext c = none) (count : ℕ) :
    ∀ (s : ℕ) (db : Db) (c t : ℕ) (m : MissionRec),
      db.mission = some m → m.status = MissionStatus.ACTIVE →
      (runSteps cfg sc count s db c t).db.waypoints = db.waypoints ∧
      ((runSteps cfg sc count s db c t).exit = SegExit.segDone →
        ∃ m', (runSteps cfg sc count s db c t).db.mission = some m' ∧
          m'.status = MissionStatus.ACTIVE) := by
  induction count with
  | zero =>
    intro s db c t m hm hst
    exact ⟨rfl, fun _ => ⟨m, hm, hst⟩⟩
  | succ k ih =>
    intro s db c t m hm hst
    rcases tickBody_shape cfg sc s db c t with ⟨hne, heq⟩ |
      ⟨hd1, hd0, heq⟩ |
      ⟨m1, d, hm1, hst1, hdx, ⟨hnb, heq⟩ | ⟨hnb, heq⟩⟩
    · exfalso
      rw [applyExt_none cfg c db (hext c)] at hne
      exact hne m hm hst
    · have hres : runSteps cfg sc (k + 1) s db c t =
          ⟨applyExt cfg c db, [], c + 1, t,
           .err "Record to update not found"⟩ := by
        simp only [runSteps, heq]
      rw [hres]
      exact ⟨applyExt_waypoints cfg c db,
        fun h => SegExit.noConfusion h⟩
    · have hres : runSteps cfg sc (k + 1) s db c t =
          ⟨⟨some { m1 with
                   status := MissionStatus.ABORTED, endTime := some t },
            some ⟨DroneStatus.AVAILABLE, drainAt d.battery,
                  (tickPos sc s).1, (tickPos sc s).2.1,
                  (tickPos sc s).2.2⟩,
            db.waypoints⟩,
           [Ev.pos (tickPos sc s).1 (tickPos sc s).2.1 (tickPos sc s).2.2
              (drainAt d.battery) sc.speed],
           c + 1, t, .aborted⟩ := by
        simp only [runSteps, heq]
      rw [hres]
      exact ⟨rfl, fun h => SegExit.noConfusion h⟩
    · have hrec := ih (s + 1)
        ⟨some { m1 with
                progress := progAt cfg sc s,
                currentWaypoint := sc.i,
                distanceCovered := dcAt cfg sc s },
         some ⟨if drainAt d.battery < 20 then DroneStatus.CHARGING
               else d.status,
               drainAt d.battery, (tickPos sc s).1, (tickPos sc s).2.1,
               (tickPos sc s).2.2⟩,
         db.waypoints⟩ (c + 1) (t + 1)
        { m1 with
          progress := progAt cfg sc s,
          currentWaypoint := sc.i,
          distanceCovered := dcAt cfg sc s } rfl hst1
      have hres : runSteps cfg sc (k + 1) s db c t =
          ⟨(runSteps cfg sc k (s + 1)
              ⟨some { m1 with
                      progress := progAt cfg sc s,
                      currentWaypoint := sc.i,
                      distanceCovered := dcAt cfg sc s },
               some ⟨if drainAt d.battery < 20 then DroneStatus.CHARGING
                     else d.status,
                     drainAt d.battery, (tickPos sc s).1,
                     (tickPos sc s).2.1, (tickPos sc s).2.2⟩,
               db.waypoints⟩ (c + 1) (t + 1)).db,
           [Ev.pos (tickPos sc s).1 (tickPos sc s).2.1 (tickPos sc s).2.2
              (drainAt d.battery) sc.speed,
            Ev.prog (progAt cfg sc s) sc.i sc.n (dcAt cfg sc s)
              (etaAt cfg sc s)] ++
             (runSteps cfg sc k (s + 1)
               ⟨some { m1 with
                       progress := progAt cfg sc s,
                       currentWaypoint := sc.i,
                       distanceCovered := dcAt cfg sc s },
                some ⟨if drainAt d.battery < 20 then DroneStatus.CHARGING
                      else d.status,
                      drainAt d.battery, (tickPos sc s).1,
                      (tickPos sc s).2.1, (tickPos sc s).2.2⟩,
                db.waypoints⟩ (c + 1) (t + 1)).evs,
           (runSteps cfg sc k (s + 1)
              ⟨some { m1 with
                      progress := progAt cfg sc s,
                      currentWaypoint := sc.i,
                      distanceCovered := dcAt cfg sc s },
               some ⟨if drainAt d.battery < 20 then DroneStatus.CHARGING
                     else d.status,
                     drainAt d.battery, (tickPos sc s).1,
                     (tickPos sc s).2.1, (tickPos sc s).2.2⟩,
               db.waypoints⟩ (c + 1) (t + 1)).c,
           (runSteps cfg sc k (s + 1)
              ⟨some { m1 with
                      progress := progAt cfg sc s,
                      currentWaypoint := sc.i,
                      distanceCovered := dcAt cfg sc s },
               some ⟨if drainAt d.battery < 20 then DroneStatus.CHARGING
                     else d.status,
                     drainAt d.battery, (tickPos sc s).1,
                     (tickPos sc s).2.1, (tickPos sc s).2.2⟩,
               db.waypoints⟩ (c + 1) (t + 1)).t,
           (runSteps cfg sc k (s + 1)
              ⟨some { m1 with
                      progress := progAt cfg sc s,
                      currentWaypoint := sc.i,
                      distanceCovered := dcAt cfg sc s },
               some ⟨if drainAt d.battery < 20 then DroneStatus.CHARGING
                     else d.status,
                     drainAt d.battery, (tickPos sc s).1,
                     (tickPos sc s).2.1, (tickPos sc s).2.2⟩,
               db.waypoints⟩ (c + 1) (t + 1)).exit⟩ := by
        simp only [runSteps, heq]
      rw [hres]
      exact ⟨hrec.1, hrec.2⟩

theorem runSegments_marks (cfg : SimCfg) (n : ℕ) (speed estTime : ℚ)
    (wps : List Waypoint) (hext : ∀ c, cfg.ext c = none) (fuel : ℕ) :
    ∀ (i : ℕ) (d0 : ℚ) (db : Db) (c t : ℕ) (m : MissionRec),
      db.mission = some m → m.status = MissionStatus.ACTIVE →
      (runSegments cfg n speed estTime wps fuel i d0 db c t).exit =
        RunExit.completed →
      (runSegments cfg n speed estTime wps fuel i d0 db c
          t).db.waypoints.length = db.waypoints.length ∧
      ∀ j : ℕ,
        (i + 1 ≤ j ∧ j < n ∧ j < db.waypoints.length →
          (((runSegments cfg n speed estTime wps fuel i d0 db c
                t).db.waypoints.getD j default).reached = true ∧
           ((runSegments cfg n speed estTime wps fuel i d0 db c
                t).db.waypoints.getD j default).reachedAt.isSome = true ∧
           ((runSegments cfg n speed estTime wps fuel i d0 db c
                t).db.waypoints.getD j default).timesMarked =
             (db.waypoints.getD j default).timesMarked + 1)) ∧
        (¬(i + 1 ≤ j ∧ j < n) →
          (runSegments cfg n speed estTime wps fuel i d0 db c
              t).db.waypoints.getD j default =
            db.waypoints.getD j default) := by
  induction fuel with
  | zero =>
    intro i d0 db c t m hm hst hcomp
    exact absurd hcomp (fun h => RunExit.noConfusion h)
  | succ fuel ih =>
    intro i d0 db c t m hm hst hcomp
    by_cases hlt : i + 1 < n
    case neg =>
      have hlt' : (i + 1 < n) = False := eq_false hlt
      rcases hc : completeMission db t with e | db2
      · have hres : runSegments cfg n speed estTime wps (fuel + 1) i d0
            db c t = ⟨db, [], c, t, .failed e⟩ := by
          simp only [runSegments, hlt', if_false, ite_false, hc]
        rw [hres] at hcomp
        exact absurd hcomp (fun h => RunExit.noConfusion h)
      · have hres : runSegments cfg n speed estTime wps (fuel + 1) i d0
            db c t = ⟨db2, [], c, t, .completed⟩ := by
          simp only [runSegments, hlt', if_false, ite_false, hc]
        obtain ⟨m2, d2, hm2, hd2, hm2', hd2', hw2⟩ :=
          completeMission_ok_shape db t db2 hc
        rw [hres]
        refine ⟨by rw [hw2], ?_⟩
        intro j
        constructor
        · intro hj
          exact absurd hlt (by omega)
        · intro hj
          rw [hw2]
    case pos =>
      have hlt' : (i + 1 < n) = True := eq_true hlt
      have hdb1 : applyExt cfg c db = db := applyExt_none cfg c db (hext c)
      have hdec : decide (m.status = MissionStatus.ACTIVE) = true := by
        simp [hst]
      have hinv := runSteps_inv cfg (segCtxOf cfg n speed estTime wps i d0)
        hext ((segCtxOf cfg n speed estTime wps i d0).steps + 1) 0 db
        (c + 1) t m hm hst
      rcases hr : runSteps cfg (segCtxOf cfg n speed estTime wps i d0)
          ((segCtxOf cfg n speed estTime wps i d0).steps + 1) 0 db
          (c + 1) t with ⟨rdb, revs, rc, rt, rexit⟩
      rw [hr] at hinv
      simp only at hinv
      rcases rexit with _ | _ | _ | e
      · -- segment finished: recurse past the mark
        obtain ⟨hwinv, hmaint⟩ := hinv
        obtain ⟨m', hm', hst'⟩ := hmaint rfl
        have hres : runSegments cfg n speed estTime wps (fuel + 1) i d0
            db c t =
            ⟨(runSegments cfg n speed estTime wps fuel (i + 1)
                (d0 + (segCtxOf cfg n speed estTime wps i d0).segDist)
                { rdb with
                  waypoints := markWaypoint rdb.waypoints (i + 1) rt }
                rc rt).db,
             revs ++ (runSegments cfg n speed estTime wps fuel (i + 1)
                (d0 + (segCtxOf cfg n speed estTime wps i d0).segDist)
                { rdb with
                  waypoints := markWaypoint rdb.waypoints (i + 1) rt }
                rc rt).evs,
             (runSegments cfg n speed estTime wps fuel (i + 1)
                (d0 + (segCtxOf cfg n speed estTime wps i d0).segDist)
                { rdb with
                  waypoints := markWaypoint rdb.waypoints (i + 1) rt }
                rc rt).c,
             (runSegments cfg n speed estTime wps fuel (i + 1)
                (d0 + (segCtxOf cfg n speed estTime wps i d0).segDist)
                { rdb with
                  waypoints := markWaypoint rdb.waypoints (i + 1) rt }
                rc rt).t,
             (runSegments cfg n speed estTime wps fuel (i + 1)
                (d0 + (segCtxOf cfg n speed estTime wps i d0).segDist)
                { rdb with
                  waypoints := markWaypoint rdb.waypoints (i + 1) rt }
                rc rt).exit⟩ := by
          simp only [runSegments, hlt', if_true, ite_true, hdb1, hm, hdec,
            eq_self_iff_true, hr]
        rw [hres] at hcomp ⊢
        simp only at hcomp ⊢
        have hrec := ih (i + 1)
          (d0 + (segCtxOf cfg n speed estTime wps i d0).segDist)
          { rdb with waypoints := markWaypoint rdb.waypoints (i + 1) rt }
          rc rt m' hm' hst' hcomp
        have hproj : ({ rdb with
            waypoints := markWaypoint rdb.waypoints (i + 1) rt } :
              Db).waypoints = markWaypoint rdb.waypoints (i + 1) rt := rfl
        have hlen1 : ({ rdb with
            waypoints := markWaypoint rdb.waypoints (i + 1) rt } :
              Db).waypoints.length = db.waypoints.length := by
          rw [hproj, markWaypoint_length, hwinv]
        refine ⟨hrec.1.trans hlen1, ?_⟩
        intro j
        obtain ⟨hmkj, hunj⟩ := hrec.2 j
        constructor
        · rintro ⟨hij, hjn, hjlen⟩
          rcases eq_or_lt_of_le hij with hji | hji
          · -- j = i + 1: marked by this iteration, untouched afterwards
            subst hji
            have hidx : i + 1 < rdb.waypoints.length := by
              rw [hwinv]
              omega
            have hunj' := hunj (by omega)
            rw [hunj', hproj,
              markWaypoint_getD_self rdb.waypoints (i + 1) rt hidx]
            refine ⟨rfl, rfl, ?_⟩
            rw [hwinv]
          · -- j > i + 1: marked by the recursion
            have hgd : ({ rdb with
                waypoints := markWaypoint rdb.waypoints (i + 1) rt } :
                  Db).waypoints.getD j default =
                db.waypoints.getD j default := by
              rw [hproj, markWaypoint_getD_ne rdb.waypoints (i + 1) rt j
                (by omega), hwinv]
            obtain ⟨ha, hb, hc2⟩ := hmkj ⟨by omega, hjn, by
              rw [hlen1]
              exact hjlen⟩
            refine ⟨ha, hb, ?_⟩
            rw [hc2, hgd]
        · intro hj
          have hgd : ({ rdb with
              waypoints := markWaypoint rdb.waypoints (i + 1) rt } :
                Db).waypoints.getD j default =
              db.waypoints.getD j default := by
            rw [hproj, markWaypoint_getD_ne rdb.waypoints (i + 1) rt j
              (by omega), hwinv]
          rw [hunj (by omega), hgd]
      · -- suspended mid-segment: exit is not `completed`
        have hres : runSegments cfg n speed estTime wps (fuel + 1) i d0
            db c t = ⟨rdb, revs, rc, rt, .stoppedNotActive⟩ := by
          simp only [runSegments, hlt', if_true, ite_true, hdb1, hm, hdec,
            eq_self_iff_true, hr]
        rw [hres] at hcomp
        exact absurd hcomp (fun h => RunExit.noConfusion h)
      · -- aborted on low battery
        have hres : runSegments cfg n speed estTime wps (fuel + 1) i d0
            db c t = ⟨rdb, revs, rc, rt, .abortedLow⟩ := by
          simp only [runSegments, hlt', if_true, ite_true, hdb1, hm, hdec,
            eq_self_iff_true, hr]
        rw [hres] at hcomp
        exact absurd hcomp (fun h => RunExit.noConfusion h)
      · -- tick errored
        have hres : runSegments cfg n speed estTime wps (fuel + 1) i d0
            db c t = ⟨rdb, revs, rc, rt, .failed e⟩ := by
          simp only [runSegments, hlt', if_true, ite_true, hdb1, hm, hdec,
            eq_self_iff_true, hr]
        rw [hres] at hcomp
        exact absurd hcomp (fun h => RunExit.noConfusion h)

/-- Claim C8 (corrected): in an uninterrupted worker run (no concurrent
status writes) of an `ACTIVE` mission starting from waypoint 0 that exits
`completed`, every waypoint after the first is marked reached exactly
once — `reached` set, a `reachedAt` timestamp recorded, and exactly one
`waypoint.update` issued against its row — while the first waypoint's row
is never written: the engine only ever marks `waypoints[i + 1]`. -/
theorem c8_amended_marks (cfg : SimCfg) (db : Db) (m : MissionRec)
    (hext : ∀ c, cfg.ext c = none) (hm : db.mission = some m)
    (hst : m.status = MissionStatus.ACTIVE) (hcw : m.currentWaypoint = 0)
    (hcomp : (processMission cfg db).exit = RunExit.completed) :
    (processMission cfg db).db.waypoints.length = db.waypoints.length ∧
    ∀ j : ℕ,
      (1 ≤ j ∧ j < db.waypoints.length →
        (((processMission cfg db).db.waypoints.getD j default).reached =
            true ∧
         ((processMission cfg db).db.waypoints.getD j
             default).reachedAt.isSome = true ∧
         ((processMission cfg db).db.waypoints.getD j
             default).timesMarked =
           (db.waypoints.getD j default).timesMarked + 1)) ∧
      (j = 0 →
        (processMission cfg db).db.waypoints.getD j default =
          db.waypoints.getD j default) := by
  rcases hw : db.waypoints.isEmpty with _ | _
  case true =>
    exfalso
    have hres : processMission cfg db =
        ⟨catchAbort db 0, [], 0, 0, .failed "No waypoints found"⟩ := by
      simp only [processMission, hm, hw, if_true, ite_true]
    rw [hres] at hcomp
    exact RunExit.noConfusion hcomp
  case false =>
    rcases hdro : db.drone with _ | d
    · exfalso
      have hres : processMission cfg db =
          ⟨catchAbort db 0, [], 0, 0, .failed "Drone not found"⟩ := by
        simp only [processMission, hm, hw, Bool.false_eq_true, if_false,
          ite_false, hdro]
      rw [hres] at hcomp
      exact RunExit.noConfusion hcomp
    · have key := runSegments_marks cfg db.waypoints.length m.speed
        m.estimatedTime db.waypoints hext (db.waypoints.length + 1)
        m.currentWaypoint m.distanceCovered db 0 0 m hm hst
      rcases hr : runSegments cfg db.waypoints.length m.speed
          m.estimatedTime db.waypoints (db.waypoints.length + 1)
          m.currentWaypoint m.distanceCovered db 0 0 with
        ⟨rdb, revs, rc, rt, rexit⟩
      rw [hr] at key
      simp only at key
      rcases rexit with _ | _ | _ | e | _
      case completed =>
        have hres : processMission cfg db =
            ⟨rdb, revs, rc, rt, .completed⟩ := by
          simp only [processMission, hm, hw, Bool.false_eq_true, if_false,
            ite_false, hdro, hr]
        rw [hres]
        have key' := key rfl
        rw [hcw] at key'
        refine ⟨key'.1, ?_⟩
        intro j
        obtain ⟨hmk, hun⟩ := key'.2 j
        constructor
        · rintro ⟨h1, h2⟩
          exact hmk ⟨by omega, h2, h2⟩
        · intro h0
          subst h0
          exact hun (by omega)
      case stoppedNotActive =>
        exfalso
        have hres : processMission cfg db =
            ⟨rdb, revs, rc, rt, .stoppedNotActive⟩ := by
          simp only [processMission, hm, hw, Bool.false_eq_true, if_false,
            ite_false, hdro, hr]
        rw [hres] at hcomp
        exact RunExit.noConfusion hcomp
      case abortedLow =>
        exfalso
        have hres : processMission cfg db =
            ⟨rdb, revs, rc, rt, .abortedLow⟩ := by
          simp only [processMission, hm, hw, Bool.false_eq_true, if_false,
            ite_false, hdro, hr]
        rw [hres] at hcomp
        exact RunExit.noConfusion hcomp
      case failed =>
        exfalso
        have hres : processMission cfg db =
            ⟨catchAbort rdb rt, revs, rc, rt, .failed e⟩ := by
          simp only [processMission, hm, hw, Bool.false_eq_true, if_false,
            ite_false, hdro, hr]
        rw [hres] at hcomp
        exact RunExit.noConfusion hcomp
      case fuelOut =>
        exfalso
        have hres : processMission cfg db =
            ⟨rdb, revs, rc, rt, .fuelOut⟩ := by
          simp only [processMission, hm, hw, Bool.false_eq_true, if_false,
            ite_false, hdro, hr]
        rw [hres] at hcomp
        exact RunExit.noConfusion hcomp

/-- Claim C8, witness for the amended marking property: the concrete
uninterrupted two-waypoint run satisfies every hypothesis, so its second
waypoint is marked exactly once and its first is untouched. -/
theorem c8_amended_witness :
    (∀ c, cfgLat.ext c = none) ∧
    dbRun.mission = some missionActive ∧
    missionActive.status = MissionStatus.ACTIVE ∧
    missionActive.currentWaypoint = 0 ∧
    (processMission cfgLat dbRun).exit = RunExit.completed ∧
    ((processMission cfgLat dbRun).db.waypoints.length =
        dbRun.waypoints.length ∧
      ∀ j : ℕ,
        (1 ≤ j ∧ j < dbRun.waypoints.length →
          (((processMission cfgLat dbRun).db.waypoints.getD j
              default).reached = true ∧
           ((processMission cfgLat dbRun).db.waypoints.getD j
               default).reachedAt.isSome = true ∧
           ((processMission cfgLat dbRun).db.waypoints.getD j
               default).timesMarked =
             (dbRun.waypoints.getD j default).timesMarked + 1)) ∧
        (j = 0 →
          (processMission cfgLat dbRun).db.waypoints.getD j default =
            dbRun.waypoints.getD j default)) := by
  have hexit : (processMission cfgLat dbRun).exit = RunExit.completed := by
    rw [run0_eval]
  exact ⟨fun c => rfl, rfl, rfl, rfl, hexit,
    c8_amended_marks cfgLat dbRun missionActive (fun c => rfl) rfl rfl rfl
      hexit⟩

/-! ### Grid pattern shape (claim C7) -/

theorem intersectsSegs_straddle (mnx mxx L : ℚ) (hx : mnx < mxx)
    (p q : ℚ × ℚ) (hp1 : mnx ≤ p.1) (hp2 : p.1 ≤ mxx) (hq1 : mnx ≤ q.1)
    (hq2 : q.1 ≤ mxx) (hstr : straddlesAt L (p, q) = true) :
    (intersectsSegs mnx L mxx L p.1 p.2 q.1 q.2).isSome = true := by
  rcases p with ⟨px, py⟩
  rcases q with ⟨qx, qy⟩
  simp only [straddlesAt, decide_eq_true_eq] at hstr
  simp only at hp1 hp2 hq1 hq2
  have hxx : (0 : ℚ) < mxx - mnx := by linarith
  simp only [intersectsSegs]
  rcases hstr with ⟨hpL, hqL⟩ | ⟨hqL, hpL⟩
  · -- edge start on the line, edge end strictly above
    rw [hpL]
    have hq0 : (0 : ℚ) < qy - L := by linarith
    have hden : (qy - L) * (mxx - mnx) - (qx - px) * (L - L) =
        (qy - L) * (mxx - mnx) := by ring
    have hnumA : (qx - px) * (L - L) - (qy - L) * (mnx - px) =
        (qy - L) * (px - mnx) := by ring
    have hnumB : (mxx - mnx) * (L - L) - (L - L) * (mnx - px) = 0 := by
      ring
    rw [hden, hnumA, hnumB]
    have hdpos : (0 : ℚ) < (qy - L) * (mxx - mnx) := mul_pos hq0 hxx
    rw [if_neg (ne_of_gt hdpos)]
    rw [mul_div_mul_left (px - mnx) (mxx - mnx) (ne_of_gt hq0), zero_div]
    rw [if_pos ⟨div_nonneg (by linarith) (by linarith),
      (div_le_one hxx).mpr (by linarith), le_refl 0, by norm_num⟩]
    rfl
  · -- edge end on the line, edge start strictly above
    rw [hqL]
    have hne : L - py ≠ 0 := by
      intro h
      rw [sub_eq_zero] at h
      linarith
    have hden : (L - py) * (mxx - mnx) - (qx - px) * (L - L) =
        (L - py) * (mxx - mnx) := by ring
    have hnumA : (qx - px) * (L - py) - (L - py) * (mnx - px) =
        (L - py) * (qx - mnx) := by ring
    have hnumB : (mxx - mnx) * (L - py) - (L - L) * (mnx - px) =
        (L - py) * (mxx - mnx) := by ring
    rw [hden, hnumA, hnumB]
    have hdne : (L - py) * (mxx - mnx) ≠ 0 :=
      mul_ne_zero hne (ne_of_gt hxx)
    rw [if_neg hdne]
    rw [mul_div_mul_left (qx - mnx) (mxx - mnx) hne, div_self hdne]
    rw [if_pos ⟨div_nonneg (by linarith) (by linarith),
      (div_le_one hxx).mpr (by linarith), by norm_num, le_refl 1⟩]
    rfl

theorem crossings_arrival (L : ℚ) :
    ∀ (t : List (ℚ × ℚ)) (c : ℚ × ℚ), L < c.2 →
      (∀ w ∈ t, L ≤ w.2) →
      (∀ e, (c :: t).getLast? = some e → e.2 = L) →
      1 ≤ List.countP (straddlesAt L) ((c :: t).zip t) := by
  intro t
  induction t with
  | nil =>
    intro c hc _ hlast
    exact absurd (hlast c (by simp)) (by intro h; linarith)
  | cons d t' ih =>
    intro c hc hall hlast
    rw [List.zip_cons_cons]
    by_cases hd2 : d.2 = L
    · rw [List.countP_cons_of_pos]
      · omega
      · simp only [straddlesAt, decide_eq_true_eq]
        exact Or.inr ⟨hd2, hc⟩
    · have hd2' : L < d.2 :=
        lt_of_le_of_ne (hall d (List.mem_cons_self d t')) (Ne.symm hd2)
      rw [List.countP_cons]
      have h1 := ih d hd2' (fun w hw => hall w (List.mem_cons_of_mem d hw))
        (fun e he => hlast e (by rw [List.getLast?_cons_cons]; exact he))
      omega

theorem crossings_departure (L : ℚ) :
    ∀ (t : List (ℚ × ℚ)) (d : ℚ × ℚ), d.2 = L →
      (∀ w ∈ t, L ≤ w.2) →
      (∃ e, (d :: t).getLast? = some e ∧ L < e.2) →
      1 ≤ List.countP (straddlesAt L) ((d :: t).zip t) := by
  intro t
  induction t with
  | nil =>
    intro d hd _ hlast
    obtain ⟨e, he, hLe⟩ := hlast
    simp only [List.getLast?_singleton, Option.some.injEq] at he
    subst he
    exact absurd hLe (by rw [hd]; exact lt_irrefl L)
  | cons c t' ih =>
    intro d hd hall hlast
    rw [List.zip_cons_cons]
    by_cases hc2 : L < c.2
    · rw [List.countP_cons_of_pos]
      · omega
      · simp only [straddlesAt, decide_eq_true_eq]
        exact Or.inl ⟨hd, hc2⟩
    · have hc2' : c.2 = L :=
        le_antisymm (not_lt.mp hc2) (hall c (List.mem_cons_self c t'))
      rw [List.countP_cons]
      obtain ⟨e, he, hLe⟩ := hlast
      have h1 := ih c hc2' (fun w hw => hall w (List.mem_cons_of_mem c hw))
        ⟨e, by rw [← List.getLast?_cons_cons]; exact he, hLe⟩
      omega

theorem crossings_low_low (L : ℚ) :
    ∀ (t : List (ℚ × ℚ)) (a : ℚ × ℚ), a.2 = L →
      (∀ w ∈ t, L ≤ w.2) →
      (∃ b ∈ t, L < b.2) →
      (∀ e, (a :: t).getLast? = some e → e.2 = L) →
      2 ≤ List.countP (straddlesAt L) ((a :: t).zip t) := by
  intro t
  induction t with
  | nil =>
    intro a _ _ hb _
    obtain ⟨b, hb', _⟩ := hb
    exact absurd hb' (List.not_mem_nil b)
  | cons c t' ih =>
    intro a ha hall hb hlast
    rw [List.zip_cons_cons]
    by_cases hc2 : L < c.2
    · rw [List.countP_cons_of_pos]
      · have h1 := crossings_arrival L t' c hc2
          (fun w hw => hall w (List.mem_cons_of_mem c hw))
          (fun e he => hlast e
            (by rw [List.getLast?_cons_cons]; exact he))
        omega
      · simp only [straddlesAt, decide_eq_true_eq]
        exact Or.inl ⟨ha, hc2⟩
    · have hc2' : c.2 = L :=
        le_antisymm (not_lt.mp hc2) (hall c (List.mem_cons_self c t'))
      obtain ⟨b, hbm, hbL⟩ := hb
      have hb' : b ∈ t' := by
        rcases List.mem_cons.mp hbm with rfl | h
        · exact absurd (hc2' ▸ hbL) (lt_irrefl L)
        · exact h
      rw [List.countP_cons]
      have h1 := ih c hc2' (fun w hw => hall w (List.mem_cons_of_mem c hw))
        ⟨b, hb', hbL⟩
        (fun e he => hlast e (by rw [List.getLast?_cons_cons]; exact he))
      omega

theorem crossings_high_high (L : ℚ) :
    ∀ (t : List (ℚ × ℚ)) (c : ℚ × ℚ), L < c.2 →
      (∀ w ∈ t, L ≤ w.2) →
      (∃ a ∈ t, a.2 = L) →
      (∃ e, (c :: t).getLast? = some e ∧ L < e.2) →
      2 ≤ List.countP (straddlesAt L) ((c :: t).zip t) := by
  intro t
  induction t with
  | nil =>
    intro c _ _ ha _
    obtain ⟨a, ha', _⟩ := ha
    exact absurd ha' (List.not_mem_nil a)
  | cons d t' ih =>
    intro c hc hall ha hlast
    rw [List.zip_cons_cons]
    by_cases hd2 : d.2 = L
    · rw [List.countP_cons_of_pos]
      · obtain ⟨e, he, hLe⟩ := hlast
        have h1 := crossings_departure L t' d hd2
          (fun w hw => hall w (List.mem_cons_of_mem d hw))
          ⟨e, by rw [← List.getLast?_cons_cons]; exact he, hLe⟩
        omega
      · simp only [straddlesAt, decide_eq_true_eq]
        exact Or.inr ⟨hd2, hc⟩
    · have hd2' : L < d.2 :=
        lt_of_le_of_ne (hall d (List.mem_cons_self d t')) (Ne.symm hd2)
      obtain ⟨a, ham, haL⟩ := ha
      have ha' : a ∈ t' := by
        rcases List.mem_cons.mp ham with rfl | h
        · exact absurd hd2' (by rw [haL]; exact lt_irrefl L)
        · exact h
      rw [List.countP_cons]
      obtain ⟨e, he, hLe⟩ := hlast
      have h1 := ih d hd2' (fun w hw => hall w (List.mem_cons_of_mem d hw))
        ⟨a, ha', haL⟩
        ⟨e, by rw [← List.getLast?_cons_cons]; exact he, hLe⟩
      omega

theorem ring_crossings (L : ℚ) (v : ℚ × ℚ) (l : List (ℚ × ℚ))
    (hall : ∀ w ∈ v :: l, L ≤ w.2)
    (hclosed : ∀ e, (v :: l).getLast? = some e → e.2 = v.2)
    (hlow : ∃ a ∈ v :: l, a.2 = L) (hhigh : ∃ b ∈ v :: l, L < b.2) :
    2 ≤ List.countP (straddlesAt L) ((v :: l).zip l) := by
  by_cases hv : v.2 = L
  · obtain ⟨b, hbm, hbL⟩ := hhigh
    have hb' : b ∈ l := by
      rcases List.mem_cons.mp hbm with rfl | h
      · exact absurd (hv ▸ hbL) (lt_irrefl L)
      · exact h
    exact crossings_low_low L l v hv
      (fun w hw => hall w (List.mem_cons_of_mem v hw)) ⟨b, hb', hbL⟩
      (fun e he => (hclosed e he).trans hv)
  · have hv' : L < v.2 :=
      lt_of_le_of_ne (hall v (List.mem_cons_self v l)) (Ne.symm hv)
    obtain ⟨a, ham, haL⟩ := hlow
    have ha' : a ∈ l := by
      rcases List.mem_cons.mp ham with rfl | h
      · exact absurd haL hv
      · exact h
    have hgl : (v :: l).getLast? =
        some ((v :: l).getLast (List.cons_ne_nil v l)) :=
      List.getLast?_eq_getLast _ _
    exact crossings_high_high L l v hv'
      (fun w hw => hall w (List.mem_cons_of_mem v hw)) ⟨a, ha', haL⟩
      ⟨(v :: l).getLast (List.cons_ne_nil v l), hgl,
       by rw [hclosed _ hgl]; exact hv'⟩

theorem bboxFold_le (rest : List (ℚ × ℚ)) :
    ∀ b : ℚ × ℚ × ℚ × ℚ,
      (rest.foldl bboxStep b).1 ≤ b.1 ∧
      (rest.foldl bboxStep b).2.1 ≤ b.2.1 ∧
      b.2.2.1 ≤ (rest.foldl bboxStep b).2.2.1 ∧
      b.2.2.2 ≤ (rest.foldl bboxStep b).2.2.2 := by
  induction rest with
  | nil =>
    intro b
    exact ⟨le_refl _, le_refl _, le_refl _, le_refl _⟩
  | cons v rest ih =>
    intro b
    rw [List.foldl_cons]
    have h := ih (bboxStep b v)
    exact ⟨le_trans h.1 (min_le_left _ _), le_trans h.2.1 (min_le_left _ _),
      le_trans (le_max_left _ _) h.2.2.1,
      le_trans (le_max_left _ _) h.2.2.2⟩

theorem bboxFold_mem (rest : List (ℚ × ℚ)) :
    ∀ (b : ℚ × ℚ × ℚ × ℚ) (v : ℚ × ℚ), v ∈ rest →
      (rest.foldl bboxStep b).1 ≤ v.1 ∧
      (rest.foldl bboxStep b).2.1 ≤ v.2 ∧
      v.1 ≤ (rest.foldl bboxStep b).2.2.1 ∧
      v.2 ≤ (rest.foldl bboxStep b).2.2.2 := by
  induction rest with
  | nil =>
    intro b v hv
    exact absurd hv (List.not_mem_nil v)
  | cons w rest ih =>
    intro b v hv
    rw [List.foldl_cons]
    rcases List.mem_cons.mp hv with rfl | hv'
    · have h := bboxFold_le rest (bboxStep b v)
      exact ⟨le_trans h.1 (min_le_right _ _),
        le_trans h.2.1 (min_le_right _ _),
        le_trans (le_max_right _ _) h.2.2.1,
        le_trans (le_max_right _ _) h.2.2.2⟩
    · exact ih (bboxStep b w) v hv'

theorem bboxFold_attain_min (rest : List (ℚ × ℚ)) :
    ∀ b : ℚ × ℚ × ℚ × ℚ,
      (rest.foldl bboxStep b).2.1 = b.2.1 ∨
      ∃ v ∈ rest, (rest.foldl bboxStep b).2.1 = v.2 := by
  induction rest with
  | nil =>
    intro b
    exact Or.inl rfl
  | cons w rest ih =>
    intro b
    rw [List.foldl_cons]
    rcases ih (bboxStep b w) with h | ⟨v, hv, he⟩
    · rcases min_choice b.2.1 w.2 with hm | hm
      · exact Or.inl (h.trans hm)
      · exact Or.inr ⟨w, List.mem_cons_self w rest, h.trans hm⟩
    · exact Or.inr ⟨v, List.mem_cons_of_mem w hv, he⟩

theorem bboxFold_attain_max (rest : List (ℚ × ℚ)) :
    ∀ b : ℚ × ℚ × ℚ × ℚ,
      (rest.foldl bboxStep b).2.2.2 = b.2.2.2 ∨
      ∃ v ∈ rest, (rest.foldl bboxStep b).2.2.2 = v.2 := by
  induction rest with
  | nil =>
    intro b
    exact Or.inl rfl
  | cons w rest ih =>
    intro b
    rw [List.foldl_cons]
    rcases ih (bboxStep b w) with h | ⟨v, hv, he⟩
    · rcases max_choice b.2.2.2 w.2 with hm | hm
      · exact Or.inl (h.trans hm)
      · exact Or.inr ⟨w, List.mem_cons_self w rest, h.trans hm⟩
    · exact Or.inr ⟨v, List.mem_cons_of_mem w hv, he⟩

theorem bboxOf_facts (coords : List (ℚ × ℚ)) (mnx mny mxx mxy : ℚ)
    (h : bboxOf coords = some (mnx, mny, mxx, mxy)) :
    (∀ v ∈ coords, mnx ≤ v.1 ∧ mny ≤ v.2 ∧ v.1 ≤ mxx ∧ v.2 ≤ mxy) ∧
    (∃ a ∈ coords, a.2 = mny) ∧ (∃ b ∈ coords, b.2 = mxy) := by
  rcases coords with _ | ⟨q, rest⟩
  · simp [bboxOf] at h
  · simp only [bboxOf, Option.some.injEq] at h
    refine ⟨?_, ?_, ?_⟩
    · intro v hv
      rcases List.mem_cons.mp hv with rfl | hv'
      · have h1 := bboxFold_le rest (v.1, v.2, v.1, v.2)
        rw [h] at h1
        exact ⟨h1.1, h1.2.1, h1.2.2.1, h1.2.2.2⟩
      · have h1 := bboxFold_mem rest (q.1, q.2, q.1, q.2) v hv'
        rw [h] at h1
        exact h1
    · rcases bboxFold_attain_min rest (q.1, q.2, q.1, q.2) with h1 | ⟨v, hv, he⟩
      · rw [h] at h1
        exact ⟨q, List.mem_cons_self q rest, h1.symm⟩
      · rw [h] at he
        exact ⟨v, List.mem_cons_of_mem q hv, he.symm⟩
    · rcases bboxFold_attain_max rest (q.1, q.2, q.1, q.2) with h1 | ⟨v, hv, he⟩
      · rw [h] at h1
        exact ⟨q, List.mem_cons_self q rest, h1.symm⟩
      · rw [h] at he
        exact ⟨v, List.mem_cons_of_mem q hv, he.symm⟩

theorem closeRing_last (P : List (ℚ × ℚ)) (v : ℚ × ℚ)
    (l : List (ℚ × ℚ)) (h : closeRing P = v :: l) :
    ∀ e, (v :: l).getLast? = some e → e.2 = v.2 := by
  rcases P with _ | ⟨p, rest⟩
  · exact absurd h (by simp [closeRing])
  · simp only [closeRing] at h
    by_cases hc : p.1 = ((p :: rest).getLast (List.cons_ne_nil p rest)).1 ∧
        p.2 = ((p :: rest).getLast (List.cons_ne_nil p rest)).2
    · rw [if_pos hc] at h
      intro e he
      have hv : v = p := by
        have := congrArg List.head? h
        simp at this
        exact this.symm
      rw [← h] at he
      rw [List.getLast?_eq_getLast _ (List.cons_ne_nil p rest),
        Option.some.injEq] at he
      rw [← he, hv]
      exact hc.2.symm
    · rw [if_neg hc] at h
      intro e he
      have hv : v = p := by
        have := congrArg List.head? h
        simp at this
        exact this.symm
      rw [← h] at he
      rw [List.getLast?_concat, Option.some.injEq] at he
      rw [← he, hv]

theorem lineIntersect_bottom_two (v : ℚ × ℚ) (l : List (ℚ × ℚ))
    (mnx mxx mny : ℚ) (hx : mnx < mxx)
    (hbounds : ∀ w ∈ v :: l, mnx ≤ w.1 ∧ mny ≤ w.2 ∧ w.1 ≤ mxx)
    (hclosed : ∀ e, (v :: l).getLast? = some e → e.2 = v.2)
    (hlow : ∃ a ∈ v :: l, a.2 = mny)
    (hhigh : ∃ b ∈ v :: l, mny < b.2) :
    2 ≤ (lineIntersect (mnx, mny) (mxx, mny) (v :: l)).length := by
  have hcount := ring_crossings mny v l
    (fun w hw => (hbounds w hw).2.1) hclosed hlow hhigh
  simp only [lineIntersect, List.tail_cons]
  rw [List.length_filterMap_eq_countP]
  refine le_trans hcount (List.countP_mono_left ?_)
  intro e he hse
  rcases e with ⟨p, q⟩
  have hmem := List.of_mem_zip he
  have hp := hbounds p hmem.1
  have hq := hbounds q (List.mem_cons_of_mem v hmem.2)
  exact intersectsSegs_straddle mnx mxx mny hx p q hp.1 hp.2.2 hq.1
    hq.2.2 hse

theorem gridLine_cases (ring : List (ℚ × ℚ))
    (mnx mxx altitude lat : ℚ) (dir : Bool) :
    (gridLine ring mnx mxx altitude lat dir).length = 0 ∨
    (gridLine ring mnx mxx altitude lat dir).length = 2 := by
  simp only [gridLine]
  by_cases h2 : 2 ≤ (lineIntersect (if dir then (mnx, lat) else (mxx, lat))
      (if dir then (mxx, lat) else (mnx, lat)) ring).length
  · rw [if_pos h2]
    cases dir
    · exact Or.inr rfl
    · exact Or.inr rfl
  · rw [if_neg h2]
    exact Or.inl rfl

theorem gridLine_accepted (ring : List (ℚ × ℚ))
    (mnx mxx altitude lat : ℚ) (dir : Bool)
    (h2 : 2 ≤ (lineIntersect (if dir then (mnx, lat) else (mxx, lat))
        (if dir then (mxx, lat) else (mnx, lat)) ring).length) :
    (gridLine ring mnx mxx altitude lat dir).length = 2 := by
  simp only [gridLine]
  rw [if_pos h2]
  cases dir
  · rfl
  · rfl

theorem gridLine_altitude (ring : List (ℚ × ℚ))
    (mnx mxx altitude lat : ℚ) (dir : Bool) :
    ∀ w ∈ gridLine ring mnx mxx altitude lat dir, w.2.2 = altitude := by
  intro w hw
  simp only [gridLine] at hw
  split at hw <;> split at hw
  all_goals first
    | exact absurd hw (List.not_mem_nil w)
    | (simp only [List.mem_cons, List.mem_singleton, List.not_mem_nil,
         or_false] at hw
       rcases hw with rfl | rfl
       · rfl
       · rfl)

theorem flatMap_length_even (f : ℕ → List (ℚ × ℚ × ℚ))
    (hf : ∀ k, (f k).length % 2 = 0) :
    ∀ l : List ℕ, (l.flatMap f).length % 2 = 0 := by
  intro l
  induction l with
  | nil => rfl
  | cons a l ih =>
    rw [List.flatMap_cons, List.length_append]
    have := hf a
    omega

/-- Claim C7 (confirmed): for a polygon whose bounding box has positive
width and whose vertical extent exceeds the sweep spacing (converted to
degrees), the GRID pattern is non-empty and of even length, every
generated waypoint is at the requested flight altitude, and every
accepted sweep line — one whose full-width line gathers at least two
boundary hits — contributes exactly two waypoints. -/
theorem c7_grid_pattern_shape (P : List (ℚ × ℚ)) (altitude spacing : ℚ)
    (mnx mny mxx mxy : ℚ)
    (hbox : bboxOf (closeRing P) = some (mnx, mny, mxx, mxy))
    (hsp : 0 < spacing) (hwidth : mnx < mxx)
    (hheight : spacing / 111320 < mxy - mny) :
    generateGridPattern P altitude spacing 0 ≠ [] ∧
    (generateGridPattern P altitude spacing 0).length % 2 = 0 ∧
    (∀ w ∈ generateGridPattern P altitude spacing 0, w.2.2 = altitude) ∧
    ∀ lat : ℚ, ∀ dir : Bool,
      2 ≤ (lineIntersect (if dir then (mnx, lat) else (mxx, lat))
          (if dir then (mxx, lat) else (mnx, lat)) (closeRing P)).length →
      (gridLine (closeRing P) mnx mxx altitude lat dir).length = 2 := by
  have hsD : (0 : ℚ) < spacing / 111320 := by positivity
  have hyy : mny < mxy := by linarith
  rcases hcr : closeRing P with _ | ⟨v, l⟩
  · rw [hcr] at hbox
    simp [bboxOf] at hbox
  have hbox' : bboxOf (v :: l) = some (mnx, mny, mxx, mxy) := by
    rw [← hcr]
    exact hbox
  obtain ⟨hbnd, hlow, hhigh0⟩ := bboxOf_facts (v :: l) mnx mny mxx mxy hbox'
  have hhigh : ∃ b ∈ v :: l, mny < b.2 := by
    obtain ⟨b, hbm, hbe⟩ := hhigh0
    exact ⟨b, hbm, by rw [hbe]; exact hyy⟩
  have hcl := closeRing_last P v l hcr
  have h2 : 2 ≤ (lineIntersect (mnx, mny) (mxx, mny) (v :: l)).length :=
    lineIntersect_bottom_two v l mnx mxx mny hwidth
      (fun w hw => ⟨(hbnd w hw).1, (hbnd w hw).2.1, (hbnd w hw).2.2.1⟩)
      hcl hlow hhigh
  have hG : generateGridPattern P altitude spacing 0 =
      (List.range (numSweeps mny mxy (spacing / 111320))).flatMap
        (fun k => gridLine (v :: l) mnx mxx altitude
          (mny + (k : ℚ) * (spacing / 111320)) (k % 2 == 0)) := by
    simp only [generateGridPattern, hcr, hbox']
  have hns : numSweeps mny mxy (spacing / 111320) =
      (Int.floor ((mxy - mny) / (spacing / 111320))).toNat + 1 := by
    rw [numSweeps, if_pos ⟨hsD, le_of_lt hyy⟩]
  have hlat0 : mny + ((0 : ℕ) : ℚ) * (spacing / 111320) = mny := by
    push_cast
    ring
  have hline0 : (gridLine (v :: l) mnx mxx altitude
      (mny + ((0 : ℕ) : ℚ) * (spacing / 111320))
      ((0 : ℕ) % 2 == 0)).length = 2 := by
    rw [hlat0]
    exact gridLine_accepted (v :: l) mnx mxx altitude mny true h2
  refine ⟨?_, ?_, ?_, ?_⟩
  · rw [hG, hns, List.range_succ_eq_map, List.flatMap_cons]
    intro hnil
    have hlen := congrArg List.length hnil
    rw [List.length_append, hline0] at hlen
    simp at hlen
  · rw [hG]
    refine flatMap_length_even _ (fun k => ?_) _
    rcases gridLine_cases (v :: l) mnx mxx altitude
        (mny + (k : ℚ) * (spacing / 111320)) (k % 2 == 0) with h | h
    · rw [h]
    · rw [h]
  · rw [hG]
    intro w hw
    rw [List.mem_flatMap] at hw
    obtain ⟨k, _, hwk⟩ := hw
    exact gridLine_altitude (v :: l) mnx mxx altitude _ _ w hwk
  · intro lat dir h2'
    exact gridLine_accepted (v :: l) mnx mxx altitude lat dir h2'

theorem c7_witness :
    bboxOf (closeRing squarePoly) = some (0, 0, 1, 1) ∧
    (0 : ℚ) < 55660 ∧ (0 : ℚ) < (1 : ℚ) ∧
    (55660 : ℚ) / 111320 < 1 - 0 ∧
    (generateGridPattern squarePoly 50 55660 0 ≠ [] ∧
     (generateGridPattern squarePoly 50 55660 0).length % 2 = 0 ∧
     (∀ w ∈ generateGridPattern squarePoly 50 55660 0, w.2.2 = 50) ∧
     ∀ lat : ℚ, ∀ dir : Bool,
       2 ≤ (lineIntersect (if dir then ((0 : ℚ), lat) else ((1 : ℚ), lat))
           (if dir then ((1 : ℚ), lat) else ((0 : ℚ), lat))
           (closeRing squarePoly)).length →
       (gridLine (closeRing squarePoly) 0 1 50 lat dir).length = 2) := by
  have hbox : bboxOf (closeRing squarePoly) = some (0, 0, 1, 1) := by
    norm_num [squarePoly, closeRing, bboxOf, bboxStep, List.getLast,
      min_def, max_def]
  exact ⟨hbox, by norm_num, by norm_num, by norm_num,
    c7_grid_pattern_shape squarePoly 50 55660 0 0 1 1 hbox (by norm_num)
      (by norm_num) (by norm_num)⟩
